import Mathlib

/-!
# Race event processor: embedding of `core/processor.go` and its verified properties

The Go program replays a feed of timed race events.  `RaceSystem.ProcessEvent`
looks up (or lazily creates) the competitor record and dispatches on the event
identifier; `ProcessEventsFromFile` cuts each line of the feed into the arguments
of one such call.  The embedding below keeps the source names.

Modelling conventions

* A `*Competitor` stored in `map[int]*Competitor` is a record reached through
  its map key: handlers receive the record, return the mutated record, and
  `ProcessEvent` stores it back under the key (`commit`).
* Go `int` is modelled by `Int`.  Counters change by at most five per event, so
  64-bit wraparound needs more than `10^18` events and is not modelled; the
  integer scanner keeps its 64-bit range check.
* `time.Time` is an instant counted in nanoseconds from `0000-01-01 00:00:00`,
  the date `time.Parse` gives to a clock-only layout.
* `time.Now()` is an input of `ProcessEvent` (`now`).
* The console logger is modelled by the list of `LogEvent` calls a call makes.
* An index expression that would panic at run time makes the result `none`.
* A `RaceSystem` is one whose `Config` pointer and `Competitors` map are not nil,
  as `NewRaceSystem` builds it.
-/

namespace Skiers

/-! ## Data model (`config/config.go`, `core/models.go`) -/

/-- Race parameters, `config.Config`. -/
structure Config where
  Laps : Int
  LapLen : Int
  PenaltyLen : Int
  FiringLines : Int
  Start : String
  StartDelta : String
deriving DecidableEq, Repr

/-- Instants of `time.Time`, in nanoseconds from `0000-01-01 00:00:00`. -/
structure Time where
  ns : Int
deriving DecidableEq, Repr

/-- Competitor record, `core.Competitor`. -/
structure Competitor where
  ID : Int
  Registered : Bool
  ScheduledStart : Time
  ActualStart : Time
  Finished : Bool
  Disqualified : Bool
  LapsCompleted : Int
  PenaltyLaps : Int
  ShootingStats : List (List (List Bool))
  TotalTime : Int
  FirstEvent : Time
  LastEvent : Time
  EventsCount : Int
deriving DecidableEq, Repr

/-- Race state, `core.RaceSystem` (the logger is modelled by returned log lines). -/
structure RaceSystem where
  Config : Config
  Competitors : Int → Option Competitor
  CurrentLap : Int

/-- One call `logger.LogEvent(timeStr, event)`. -/
structure LogLine where
  timeStr : String
  event : String
deriving DecidableEq, Repr

/-- Errors returned by the processor, one constructor per error site. -/
inductive RaceError where
  /-- The event timestamp does not parse (`ProcessEvent`). -/
  | badTimeFormat
  /-- The competitor is already registered (`handleRegistration`). -/
  | alreadyRegistered (id : Int)
  /-- The start time parameter does not parse (`handleStartTimeSet`). -/
  | badStartTimeFormat
  /-- The integer parameter does not scan (`parseInt`). -/
  | scanInt
  /-- The firing line number is out of range (`handleFiringRangeEntry`). -/
  | badRangeNumber (rangeNum : Int)
  /-- No shooting entry for the current lap (`processShot`). -/
  | badLap (lap : Int)
  /-- The lap entry has no firing line slot (`processShot`). -/
  | badRange (rangeNum : Int)
  /-- No shooting entry or slot on range exit (`processRangeExit`). -/
  | badRangeOnExit
  /-- The competitor owes no penalty laps (`processPenaltyEntry`, `processPenaltyExit`). -/
  | noPenaltyLaps
  /-- The event identifier is not handled (`ProcessEvent`). -/
  | unknownEvent (eventID : Int)
deriving DecidableEq, Repr

/-- State of a handler call: race state, the competitor record behind the
pointer, the log lines written and the returned error. -/
structure Step where
  rs : RaceSystem
  comp : Competitor
  logs : List LogLine
  err : Option RaceError

/-- Result of `ProcessEvent`: race state after the call, log lines, returned error. -/
structure Outcome where
  rs : RaceSystem
  logs : List LogLine
  err : Option RaceError

/-- One record of the event feed together with the clock reading at processing time. -/
structure Event where
  now : Time
  timeStr : String
  eventID : Int
  competitorID : Int
  params : String
deriving DecidableEq, Repr

/-! ## Event identifiers -/

def EventRegistration : Int := 1
def EventStartTimeSet : Int := 2
def EventOnStartLine : Int := 3
def EventStarted : Int := 4
def EventOnFiringRange : Int := 5
def EventShot : Int := 6
def EventLeftFiringRange : Int := 7
def EventEnteredPenalty : Int := 8
def EventLeftPenalty : Int := 9
def EventLapCompleted : Int := 10
def EventCannotContinue : Int := 11
def EventDisqualified : Int := 32
def EventFinished : Int := 33

/-! ## Library functions used by the processor (`time`, `fmt`) -/

/-- Nanoseconds in `time.Second`. -/
def nsPerSecond : Int := 1000000000
/-- Nanoseconds in `time.Minute`. -/
def nsPerMinute : Int := 60 * nsPerSecond
/-- Nanoseconds in `time.Hour`. -/
def nsPerHour : Int := 60 * nsPerMinute

/-- Zero value `time.Time{}`: `0001-01-01 00:00:00`, 366 days after `0000-01-01`. -/
def Time.zeroValue : Time := ⟨366 * 24 * nsPerHour⟩

/-- Method `Time.Add`. -/
def Time.Add (t : Time) (d : Int) : Time := ⟨t.ns + d⟩

/-- Method `Time.After`: `t` is strictly later than `u`. -/
def Time.After (t u : Time) : Bool := decide (u.ns < t.ns)

/-- Method `Time.Hour`. -/
def Time.Hour (t : Time) : Int := (t.ns / nsPerHour) % 24

/-- Method `Time.Minute`. -/
def Time.Minute (t : Time) : Int := (t.ns / nsPerMinute) % 60

/-- Method `Time.Second`. -/
def Time.Second (t : Time) : Int := (t.ns / nsPerSecond) % 60

/-- Decimal rendering with at least two digits. -/
def pad2 (n : Int) : String := (if n < 10 then "0" else "") ++ toString n

/-- Decimal rendering with at least three digits. -/
def pad3 (n : Int) : String :=
  (if n < 10 then "00" else if n < 100 then "0" else "") ++ toString n

/-- Method `Time.Format("15:04:05.000")`: clock reading, milliseconds truncated. -/
def Time.Format (t : Time) : String :=
  pad2 t.Hour ++ ":" ++ pad2 t.Minute ++ ":" ++ pad2 t.Second ++ "." ++
    pad3 ((t.ns % nsPerSecond) / 1000000)

/-- Value of a decimal digit. -/
def digitVal (c : Char) : Int := Int.ofNat (c.toNat - 48)

/-- Value of a string of decimal digits. -/
def digitsVal (cs : List Char) : Int := cs.foldl (fun acc c => acc * 10 + digitVal c) 0

/-- Helper `getnum` of `time.Parse`: one or two digits, exactly two when `fixed`. -/
def getnum (s : List Char) (fixed : Bool) : Option (Int × List Char) :=
  match s with
  | [] => none
  | [a] => if a.isDigit then (if fixed then none else some (digitVal a, [])) else none
  | a :: b :: rest =>
    if a.isDigit then
      if b.isDigit then some (digitVal a * 10 + digitVal b, rest)
      else if fixed then none else some (digitVal a, b :: rest)
    else none

/-- Helper `atoi` of `time.Parse`: optional sign, then digits only. -/
def atoi (s : List Char) : Option Int :=
  let neg := s.head? = some '-'
  let body := if s.head? = some '-' ∨ s.head? = some '+' then s.tail else s
  if body.all Char.isDigit then some (if neg then - digitsVal body else digitsVal body)
  else none

/-- Helper `parseNanoseconds` of `time.Parse`: separator and `nbytes - 1` digits. -/
def parseNanoseconds (value : List Char) (nbytes : Nat) : Option Int :=
  match value with
  | [] => none
  | c :: _ =>
    if c = '.' ∨ c = ',' then
      let nb := min nbytes 10
      match atoi ((value.take nb).drop 1) with
      | none => none
      | some ns => if ns < 0 then none else some (ns * 10 ^ (10 - nb))
    else none

/-- Literal `:` of the layout. -/
def skipColon (s : List Char) : Option (List Char) :=
  match s with
  | ':' :: rest => some rest
  | _ => none

/-- Hour, minute and second fields `15:04:05` with their range checks. -/
def parseHMS (s : List Char) : Option (Int × List Char) := do
  let (hour, v1) ← getnum s false
  if 24 ≤ hour then none
  let v2 ← skipColon v1
  let (min, v3) ← getnum v2 true
  if 60 ≤ min then none
  let v4 ← skipColon v3
  let (sec, v5) ← getnum v4 true
  if 60 ≤ sec then none
  pure (hour * nsPerHour + min * nsPerMinute + sec * nsPerSecond, v5)

/-- Call `time.Parse("15:04:05.000", s)`: the fraction is exactly three characters. -/
def timeParseMilli (s : String) : Option Time := do
  let (base, v) ← parseHMS s.toList
  if v.length < 4 then none
  let nsec ← parseNanoseconds v 4
  if (v.drop 4).length > 0 then none
  pure ⟨base + nsec⟩

/-- Call `time.Parse("15:04:05", s)`: the input may carry a fraction of any length. -/
def timeParseSeconds (s : String) : Option Time := do
  let (base, v) ← parseHMS s.toList
  match v with
  | c :: d :: rest =>
    if (c = '.' ∨ c = ',') ∧ d.isDigit then
      let n := 2 + (rest.takeWhile Char.isDigit).length
      let nsec ← parseNanoseconds v n
      if (v.drop n).length > 0 then none
      pure ⟨base + nsec⟩
    else none
  | [_] => none
  | [] => pure ⟨base⟩

/-- White space of the `fmt` scanner. -/
def isSpace (c : Char) : Bool :=
  let r := c.toNat
  (0x09 ≤ r ∧ r ≤ 0x0d) ∨ r = 0x20 ∨ r = 0x85 ∨ r = 0xa0 ∨ r = 0x1680 ∨
    (0x2000 ≤ r ∧ r ≤ 0x200a) ∨ r = 0x2028 ∨ r = 0x2029 ∨ r = 0x202f ∨ r = 0x205f ∨
    r = 0x3000

/-- Scanner method `SkipSpace` for `Sscanf`: a newline is an error. -/
def skipSpace : List Char → Option (List Char)
  | [] => some []
  | c :: rest =>
    if c = '\n' then none
    else if isSpace c then skipSpace rest
    else some (c :: rest)

/-- Function `parseInt`: `fmt.Sscanf(s, "%d", &n)`.  Leading space is skipped, a
sign is optional, at least one digit is required, text after the digits is
ignored and the value must fit 64 bits. -/
def parseInt (s : String) : Except RaceError Int :=
  match skipSpace s.toList with
  | none => .error .scanInt
  | some v =>
    let neg := v.head? = some '-'
    let body := if v.head? = some '-' ∨ v.head? = some '+' then v.tail else v
    let digits := body.takeWhile Char.isDigit
    if digits.length = 0 then .error .scanInt
    else
      let n := if neg then - digitsVal digits else digitsVal digits
      if n < -9223372036854775808 ∨ 9223372036854775807 < n then .error .scanInt
      else .ok n

/-! ## The processor (`core/processor.go`) -/

/-- Constructor `NewRaceSystem` once the configuration is loaded. -/
def NewRaceSystem (config : Config) : RaceSystem :=
  { Config := config, Competitors := fun _ => none, CurrentLap := 0 }

/-- Composite literal `&Competitor{ID: id}`. -/
def newCompetitor (id : Int) : Competitor :=
  { ID := id, Registered := false, ScheduledStart := Time.zeroValue,
    ActualStart := Time.zeroValue, Finished := false, Disqualified := false,
    LapsCompleted := 0, PenaltyLaps := 0, ShootingStats := [], TotalTime := 0,
    FirstEvent := Time.zeroValue, LastEvent := Time.zeroValue, EventsCount := 0 }

/-- Map assignment `rs.Competitors[id] = comp`. -/
def setCompetitor (rs : RaceSystem) (id : Int) (comp : Competitor) : RaceSystem :=
  { rs with Competitors := fun k => if k = id then some comp else rs.Competitors k }

/-- Method `getCompetitor`: the record under `id`, created when absent. -/
def getCompetitor (rs : RaceSystem) (id : Int) : RaceSystem × Competitor :=
  match rs.Competitors id with
  | some comp => (rs, comp)
  | none => (setCompetitor rs id (newCompetitor id), newCompetitor id)

/-- Method `generateOutgoingEvent`. -/
def generateOutgoingEvent (eventTime : Time) (eventID competitorID : Int)
    (message : String) (timeStr : String) : LogLine :=
  let event := "[" ++ eventTime.Format ++ "] " ++ toString eventID ++ " " ++
    toString competitorID
  ⟨timeStr, if message ≠ "" then event ++ " " ++ message else event⟩

/-- Method `finishCompetitor`. -/
def finishCompetitor (rs : RaceSystem) (comp : Competitor) (t : Time) (timeStr : String) :
    Step :=
  { rs := rs, comp := { comp with Finished := true },
    logs := [generateOutgoingEvent t EventFinished comp.ID "" timeStr], err := none }

/-- Method `disqualify`; `now` is the value of `time.Now()`. -/
def disqualify (rs : RaceSystem) (comp : Competitor) (reason : String) (now : Time)
    (timeStr : String) : Step :=
  { rs := rs, comp := { comp with Disqualified := true },
    logs := [generateOutgoingEvent now EventDisqualified comp.ID reason timeStr],
    err := none }

/-- Method `handleRegistration`. -/
def handleRegistration (rs : RaceSystem) (timeStr : String) (comp : Competitor) : Step :=
  if comp.Registered then
    { rs := rs, comp := comp, logs := [], err := some (.alreadyRegistered comp.ID) }
  else
    { rs := rs, comp := { comp with Registered := true },
      logs := [⟨timeStr, "The competitor(" ++ toString comp.ID ++ ") registered"⟩],
      err := none }

/-- Method `handleStartTimeSet`. -/
def handleStartTimeSet (rs : RaceSystem) (comp : Competitor) (params : String)
    (timeStr : String) : Step :=
  match timeParseMilli params with
  | none => { rs := rs, comp := comp, logs := [], err := some .badStartTimeFormat }
  | some t =>
    { rs := rs, comp := { comp with ScheduledStart := t },
      logs := [⟨timeStr, "The start time for the competitor(" ++ toString comp.ID ++
        ") was set by a draw to " ++ t.Format⟩],
      err := none }

/-- Method `handleStart`. -/
def handleStart (rs : RaceSystem) (comp : Competitor) (startTime : Time) (now : Time)
    (timeStr : String) : Step :=
  let comp1 := { comp with ActualStart := startTime }
  let started : LogLine := ⟨timeStr, "The competitor(" ++ toString comp.ID ++ ") has started"⟩
  let timeInterval := (timeParseSeconds rs.Config.StartDelta).getD Time.zeroValue
  let startInterval :=
    timeInterval.Hour * nsPerHour + timeInterval.Minute * nsPerMinute +
      timeInterval.Second * nsPerSecond
  let maxAllowedStart := comp1.ScheduledStart.Add startInterval
  if startTime.After maxAllowedStart then
    let s := disqualify rs comp1
      ("опоздание на старт (допустимо до " ++ maxAllowedStart.Format ++ ")") now timeStr
    { s with logs := started :: s.logs }
  else
    { rs := rs, comp := comp1, logs := [started], err := none }

/-- Method `initShootingStats`; `make([][]bool, n)` is `n` empty slots. -/
def initShootingStats (rs : RaceSystem) (comp : Competitor) : Competitor :=
  if (comp.ShootingStats.length : Int) ≤ rs.CurrentLap then
    { comp with
      ShootingStats := comp.ShootingStats ++ [List.replicate rs.Config.FiringLines.toNat []] }
  else comp

/-- Method `handleFiringRangeEntry`. -/
def handleFiringRangeEntry (rs : RaceSystem) (comp : Competitor) (rangeNum : Int)
    (timeStr : String) : Step :=
  if rangeNum < 1 ∨ rangeNum > rs.Config.FiringLines then
    { rs := rs, comp := comp, logs := [], err := some (.badRangeNumber rangeNum) }
  else
    { rs := rs, comp := initShootingStats rs comp,
      logs := [⟨timeStr, "The competitor(" ++ toString comp.ID ++
        ") is on the firing range(" ++ toString rangeNum ++ ")"⟩],
      err := none }

/-- Function `determineHit`. -/
def determineHit : Bool := true

/-- Function `countHits`. -/
def countHits (shots : List Bool) : Int :=
  shots.foldl (fun count hit => if hit then count + 1 else count) 0

/-- Method `processShot`; `none` is the run-time panic of indexing
`comp.ShootingStats` with a negative lap. -/
def processShot (rs : RaceSystem) (comp : Competitor) (target : Int) (timeStr : String) :
    Option Step :=
  if rs.CurrentLap ≥ (comp.ShootingStats.length : Int) then
    some { rs := rs, comp := comp, logs := [], err := some (.badLap rs.CurrentLap) }
  else if rs.CurrentLap < 0 then none
  else
    let lap := rs.CurrentLap.toNat
    let entry := comp.ShootingStats.getD lap []
    let rangeNum : Nat := 0
    if rangeNum ≥ entry.length then
      some { rs := rs, comp := comp, logs := [], err := some (.badRange 0) }
    else
      let hit := determineHit
      let shots := entry.getD rangeNum [] ++ [hit]
      let comp1 := { comp with
        ShootingStats := List.set comp.ShootingStats lap (List.set entry rangeNum shots) }
      let line : LogLine := ⟨timeStr, "The target(" ++ toString comp.ID ++
        ") has been hit by competitor(" ++ toString target ++ ")"⟩
      let comp2 := if !hit then { comp1 with PenaltyLaps := comp1.PenaltyLaps + 1 } else comp1
      some { rs := rs, comp := comp2, logs := [line], err := none }

/-- Method `processRangeExit`; `none` is the run-time panic of indexing
`comp.ShootingStats` with a negative lap. -/
def processRangeExit (rs : RaceSystem) (comp : Competitor) (timeStr : String) :
    Option Step :=
  let rangeNum : Nat := 0
  if rs.CurrentLap ≥ (comp.ShootingStats.length : Int) then
    some { rs := rs, comp := comp, logs := [], err := some .badRangeOnExit }
  else if rs.CurrentLap < 0 then none
  else
    let entry := comp.ShootingStats.getD rs.CurrentLap.toNat []
    if rangeNum ≥ entry.length then
      some { rs := rs, comp := comp, logs := [], err := some .badRangeOnExit }
    else
      let misses := 5 - countHits (entry.getD rangeNum [])
      if misses > 0 then
        some { rs := rs, comp := { comp with PenaltyLaps := comp.PenaltyLaps + misses },
               logs := [⟨timeStr, "The competitor(" ++ toString comp.ID ++
                 ") left the firing range"⟩],
               err := none }
      else
        some { rs := rs, comp := comp, logs := [], err := none }

/-- Method `processPenaltyEntry`. -/
def processPenaltyEntry (rs : RaceSystem) (comp : Competitor) (timeStr : String) : Step :=
  if comp.PenaltyLaps ≤ 0 then
    { rs := rs, comp := comp, logs := [], err := some .noPenaltyLaps }
  else
    { rs := rs, comp := comp,
      logs := [⟨timeStr, "The competitor(" ++ toString comp.ID ++
        ") entered the penalty laps"⟩],
      err := none }

/-- Method `processPenaltyExit`. -/
def processPenaltyExit (rs : RaceSystem) (comp : Competitor) (timeStr : String) : Step :=
  if comp.PenaltyLaps ≤ 0 then
    { rs := rs, comp := comp, logs := [], err := some .noPenaltyLaps }
  else
    { rs := rs, comp := { comp with PenaltyLaps := comp.PenaltyLaps - 1 },
      logs := [⟨timeStr, "The competitor(" ++ toString comp.ID ++
        ") left the penalty laps"⟩],
      err := none }

/-- Method `processLapCompletion`. -/
def processLapCompletion (rs : RaceSystem) (comp : Competitor) (t : Time)
    (timeStr : String) : Step :=
  let comp1 := { comp with LapsCompleted := comp.LapsCompleted + 1 }
  let rs1 := if comp1.LapsCompleted > rs.CurrentLap then
    { rs with CurrentLap := comp1.LapsCompleted } else rs
  let ended : LogLine := ⟨timeStr, "The competitor(" ++ toString comp.ID ++
    ") ended the main lap"⟩
  if comp1.LapsCompleted ≥ rs1.Config.Laps ∧ comp1.PenaltyLaps = 0 then
    let s := finishCompetitor rs1 comp1 t timeStr
    { s with logs := ended :: s.logs }
  else
    { rs := rs1, comp := comp1, logs := [ended], err := none }

/-- End of a handler call: the record behind the pointer is the one stored
under the event's competitor id. -/
def commit (id : Int) (s : Step) : Outcome :=
  { rs := setCompetitor s.rs id s.comp, logs := s.logs, err := s.err }

/-- Method `ProcessEvent`; `now` is the clock reading used by `disqualify`, and
`none` is a run-time panic. -/
def ProcessEvent (rs : RaceSystem) (now : Time) (timeStr : String)
    (eventID competitorID : Int) (params : String) : Option Outcome :=
  match timeParseMilli timeStr with
  | none => some { rs := rs, logs := [], err := some .badTimeFormat }
  | some t =>
    let rs1 := (getCompetitor rs competitorID).1
    let comp := (getCompetitor rs competitorID).2
    if eventID = EventRegistration then
      some (commit competitorID (handleRegistration rs1 timeStr comp))
    else if eventID = EventStartTimeSet then
      some (commit competitorID (handleStartTimeSet rs1 comp params timeStr))
    else if eventID = EventOnStartLine then
      some { rs := rs1, logs := [], err := none }
    else if eventID = EventStarted then
      some (commit competitorID (handleStart rs1 comp t now timeStr))
    else if eventID = EventOnFiringRange then
      match parseInt params with
      | .error e => some { rs := rs1, logs := [], err := some e }
      | .ok rangeNum =>
        some (commit competitorID (handleFiringRangeEntry rs1 comp rangeNum timeStr))
    else if eventID = EventShot then
      match parseInt params with
      | .error e => some { rs := rs1, logs := [], err := some e }
      | .ok target => (processShot rs1 comp target timeStr).map (commit competitorID)
    else if eventID = EventLeftFiringRange then
      (processRangeExit rs1 comp timeStr).map (commit competitorID)
    else if eventID = EventEnteredPenalty then
      some (commit competitorID (processPenaltyEntry rs1 comp timeStr))
    else if eventID = EventLeftPenalty then
      some (commit competitorID (processPenaltyExit rs1 comp timeStr))
    else if eventID = EventLapCompleted then
      some (commit competitorID (processLapCompletion rs1 comp t timeStr))
    else if eventID = EventCannotContinue then
      some (commit competitorID (disqualify rs1 comp ("NotFinished: " ++ params) now timeStr))
    else
      some { rs := rs1, logs := [], err := some (.unknownEvent eventID) }

/-- State after one feed record; a panic stops the program, the state stays. -/
def stepEvent (rs : RaceSystem) (e : Event) : RaceSystem :=
  match ProcessEvent rs e.now e.timeStr e.eventID e.competitorID e.params with
  | some out => out.rs
  | none => rs

/-- State after a sequence of `ProcessEvent` calls, in feed order. -/
def runEvents (rs : RaceSystem) (events : List Event) : RaceSystem :=
  events.foldl stepEvent rs

/-- States reachable from the initial race state of `config`. -/
def Reachable (config : Config) (rs : RaceSystem) : Prop :=
  ∃ events : List Event, rs = runEvents (NewRaceSystem config) events


/-! ## The feed reader (`ProcessEventsFromFile`) -/

/-- Pieces of `strings.Split(line, "] ")`, the separator found left to right; `cur`
holds the current piece in reverse. -/
def splitBracket : List Char → List Char → List (List Char)
  | [], cur => [cur.reverse]
  | [c], cur => [(c :: cur).reverse]
  | c :: d :: rest, cur =>
    if c = ']' ∧ d = ' ' then cur.reverse :: splitBracket rest []
    else splitBracket (d :: rest) (c :: cur)

/-- Pieces of `strings.Fields(data)`: the maximal runs without white space; `cur` holds
the current run in reverse. -/
def fieldsFrom : List Char → List Char → List (List Char)
  | [], cur => if cur.isEmpty then [] else [cur.reverse]
  | c :: rest, cur =>
    if isSpace c then
      if cur.isEmpty then fieldsFrom rest [] else cur.reverse :: fieldsFrom rest []
    else fieldsFrom rest (c :: cur)

/-- Value left in `n` by `fmt.Sscanf(s, "%d", &n)` when the error is dropped: 0 on failure. -/
def scanOrZero (s : String) : Int :=
  match parseInt s with
  | .ok n => n
  | .error _ => 0

/-- Slice `s[1:]` of a string whose first character is `c`: one byte is dropped, so
the other bytes of a multi-byte `c` stay, as undecodable characters. -/
def dropFirstByte (c : Char) (rest : List Char) : List Char :=
  List.replicate (c.utf8Size - 1) (Char.ofNat 0xFFFD) ++ rest

/-- What one iteration of the scanner loop of `ProcessEventsFromFile` does with a line:
it skips the line, calls `ProcessEvent` once with these arguments, or panics. -/
inductive LineAction where
  | skipped
  | call (timestampStr : String) (eventID competitorID : Int) (params : String)
  | panic
deriving DecidableEq, Repr

/-- Body of the scanner loop of `ProcessEventsFromFile` for one line. -/
def scanLine (line : String) : LineAction :=
  let parts := splitBracket line.toList []
  if parts.length < 2 then .skipped
  else
    match parts.getD 0 [] with
    | [] => .panic
    | c :: rest =>
      let timestampStr := String.mk (dropFirstByte c rest)
      let data := parts.getD 1 []
      let dataParts := fieldsFrom data []
      if dataParts.length < 2 then .skipped
      else
        let eventID := scanOrZero (String.mk (dataParts.getD 0 []))
        let competitorID := scanOrZero (String.mk (dataParts.getD 1 []))
        let params :=
          if dataParts.length > 2 then String.intercalate " " ((dataParts.drop 2).map String.mk)
          else ""
        .call timestampStr eventID competitorID params

/-! ## Vocabulary of the properties -/

/-- A log line is a synthesized event of kind `kind`: a line that
`generateOutgoingEvent` writes for some time, competitor and message. -/
def IsOutgoing (kind : Int) (l : LogLine) : Prop :=
  ∃ (tm : Time) (id : Int) (msg : String), l = generateOutgoingEvent tm kind id msg l.timeStr

/-- Number of hit outcomes recorded for `comp` in the shooting entry of the race's
current lap, over all firing line slots of the entry. -/
def hitsRecorded (rs : RaceSystem) (comp : Competitor) : Int :=
  ((comp.ShootingStats.getD rs.CurrentLap.toNat []).map countHits).sum

/-- Shape of a competitor's shooting statistics under `config`: every lap entry
has one slot per configured firing line, at least one, and only slot 0 holds shots. -/
def StatsOK (config : Config) (stats : List (List (List Bool))) : Prop :=
  ∀ entry ∈ stats, (entry.length : Int) = config.FiringLines ∧ 1 ≤ config.FiringLines ∧
    ∀ l ∈ entry.tail, l = []

/-- Invariant of the race states built by `ProcessEvent` from `NewRaceSystem`. -/
structure Inv (rs : RaceSystem) : Prop where
  lap_nonneg : 0 ≤ rs.CurrentLap
  pen : ∀ id comp, rs.Competitors id = some comp → 0 ≤ comp.PenaltyLaps
  laps_nonneg : ∀ id comp, rs.Competitors id = some comp → 0 ≤ comp.LapsCompleted
  laps_le : ∀ id comp, rs.Competitors id = some comp → comp.LapsCompleted ≤ rs.CurrentLap
  attained : rs.CurrentLap = 0 ∨
    ∃ id comp, rs.Competitors id = some comp ∧ comp.LapsCompleted = rs.CurrentLap
  stats : ∀ id comp, rs.Competitors id = some comp → StatsOK rs.Config comp.ShootingStats

/-- What a handler call may do to the race state `rs` and to the record `comp`
it was given. -/
structure StepOK (rs : RaceSystem) (comp : Competitor) (s : Step) : Prop where
  config : s.rs.Config = rs.Config
  comps : s.rs.Competitors = rs.Competitors
  pen : 0 ≤ comp.PenaltyLaps → 0 ≤ s.comp.PenaltyLaps
  laps : (s.rs.CurrentLap = rs.CurrentLap ∧ s.comp.LapsCompleted = comp.LapsCompleted) ∨
    (s.comp.LapsCompleted = comp.LapsCompleted + 1 ∧
      s.rs.CurrentLap = max rs.CurrentLap s.comp.LapsCompleted)
  stats : StatsOK rs.Config comp.ShootingStats → StatsOK rs.Config s.comp.ShootingStats
  failed : s.err ≠ none → s.rs = rs ∧ s.comp = comp

/-! ## Concrete races used to instantiate the theorems -/

/-- Two laps, one firing line, start window of five seconds. -/
def raceConfig : Config :=
  { Laps := 2, LapLen := 3500, PenaltyLen := 150, FiringLines := 1,
    Start := "10:00:00.000", StartDelta := "0:00:05" }

/-- Feed record for competitor 1 processed at clock reading `12:00:00`. -/
def feed (timeStr : String) (eventID : Int) (params : String) : Event :=
  { now := ⟨43200000000000⟩, timeStr := timeStr, eventID := eventID, competitorID := 1,
    params := params }

/-- Competitor 1 registers, starts, shoots five hits on lap one and three on lap two. -/
def threeHitsFeed : List Event :=
  [feed "09:30:00.000" 1 "", feed "09:31:00.000" 2 "10:00:00.000",
   feed "10:00:00.500" 4 "", feed "10:05:00.000" 5 "1",
   feed "10:05:01.000" 6 "1", feed "10:05:02.000" 6 "2", feed "10:05:03.000" 6 "3",
   feed "10:05:04.000" 6 "4", feed "10:05:05.000" 6 "5", feed "10:05:06.000" 7 "",
   feed "10:10:00.000" 10 "", feed "10:15:00.000" 5 "1",
   feed "10:15:01.000" 6 "1", feed "10:15:02.000" 6 "2", feed "10:15:03.000" 6 "3",
   feed "10:15:06.000" 7 ""]

/-- Race state after `threeHitsFeed`. -/
def threeHitsState : RaceSystem := runEvents (NewRaceSystem raceConfig) threeHitsFeed

/-- Race state after the draw gave competitor 1 the start time `10:00:00.000`. -/
def drawnState : RaceSystem :=
  runEvents (NewRaceSystem raceConfig) [feed "09:31:00.000" 2 "10:00:00.000"]

/-- Competitor 1 enters the firing range on lap one and fires six shots. -/
def sixHitsState : RaceSystem :=
  runEvents (NewRaceSystem raceConfig)
    [feed "10:05:00.000" 5 "1", feed "10:05:01.000" 6 "1", feed "10:05:02.000" 6 "2",
     feed "10:05:03.000" 6 "3", feed "10:05:04.000" 6 "4", feed "10:05:05.000" 6 "5",
     feed "10:05:06.000" 6 "5"]

/-- Competitor 1 completes a main lap without having visited the firing range. -/
def lapAheadState : RaceSystem :=
  runEvents (NewRaceSystem raceConfig) [feed "10:10:00.000" 10 ""]

/-- Race state after competitor 1 registered. -/
def registeredState : RaceSystem :=
  runEvents (NewRaceSystem raceConfig) [feed "09:30:00.000" 1 ""]

/-- The record with the flags `Finished` and `Disqualified` blanked. -/
def eraseFlags (comp : Competitor) : Competitor :=
  { comp with Finished := false, Disqualified := false }

/-- The record itself, or the record with its terminal flags blanked when `b` holds. -/
def projFlags : Bool → Competitor → Competitor
  | true, comp => eraseFlags comp
  | false, comp => comp

/-- Race states that agree on everything except, possibly, the `Finished` and
`Disqualified` flags of the record of competitor `c`. -/
def SameButFlags (c : Int) (rs1 rs2 : RaceSystem) : Prop :=
  rs1.Config = rs2.Config ∧ rs1.CurrentLap = rs2.CurrentLap ∧
  (∀ k, k ≠ c → rs1.Competitors k = rs2.Competitors k) ∧
  (rs1.Competitors c).map eraseFlags = (rs2.Competitors c).map eraseFlags

/-- Two handler results that agree on the error, the log lines, `CurrentLap` and the
record, the record's terminal flags left aside when `b` holds. -/
structure StepAgree (b : Bool) (s1 s2 : Step) : Prop where
  err : s1.err = s2.err
  logs : s1.logs = s2.logs
  comp : projFlags b s1.comp = projFlags b s2.comp
  lap : s1.rs.CurrentLap = s2.rs.CurrentLap

/-- Agreement of two handler results that may be run-time panics. -/
def OptAgree (b : Bool) (o1 o2 : Option Step) : Prop :=
  match o1, o2 with
  | none, none => True
  | some s1, some s2 => StepAgree b s1 s2
  | _, _ => False

/-- The handler call that `ProcessEvent` makes for an event with a valid timestamp `t`,
on the record `comp` found by `getCompetitor`; a branch of the `switch` that returns
without calling a handler is the step that changes nothing. -/
def handlerStep (rs : RaceSystem) (comp : Competitor) (t now : Time) (timeStr : String)
    (eventID : Int) (params : String) : Option Step :=
  if eventID = EventRegistration then some (handleRegistration rs timeStr comp)
  else if eventID = EventStartTimeSet then some (handleStartTimeSet rs comp params timeStr)
  else if eventID = EventOnStartLine then some { rs := rs, comp := comp, logs := [], err := none }
  else if eventID = EventStarted then some (handleStart rs comp t now timeStr)
  else if eventID = EventOnFiringRange then
    match parseInt params with
    | .error e => some { rs := rs, comp := comp, logs := [], err := some e }
    | .ok rangeNum => some (handleFiringRangeEntry rs comp rangeNum timeStr)
  else if eventID = EventShot then
    match parseInt params with
    | .error e => some { rs := rs, comp := comp, logs := [], err := some e }
    | .ok target => processShot rs comp target timeStr
  else if eventID = EventLeftFiringRange then processRangeExit rs comp timeStr
  else if eventID = EventEnteredPenalty then some (processPenaltyEntry rs comp timeStr)
  else if eventID = EventLeftPenalty then some (processPenaltyExit rs comp timeStr)
  else if eventID = EventLapCompleted then some (processLapCompletion rs comp t timeStr)
  else if eventID = EventCannotContinue then
    some (disqualify rs comp ("NotFinished: " ++ params) now timeStr)
  else some { rs := rs, comp := comp, logs := [], err := some (.unknownEvent eventID) }

/-- The state `registeredState` with both terminal flags of competitor 1 set. -/
def flaggedState : RaceSystem :=
  setCompetitor registeredState 1
    { (getCompetitor registeredState 1).2 with Finished := true, Disqualified := true }

/-- Competitor 1 is on the firing range of lap one, no shot fired yet. -/
def onRangeState : RaceSystem :=
  runEvents (NewRaceSystem raceConfig) [feed "10:05:00.000" 5 "1"]

set_option maxRecDepth 100000

/-! ## Lookup and dispatch lemmas -/

theorem getCompetitor_lookup (rs : RaceSystem) (id : Int) :
    (getCompetitor rs id).1.Competitors id = some (getCompetitor rs id).2 := by
  unfold getCompetitor
  cases h : rs.Competitors id <;> simp [setCompetitor, h]

theorem getCompetitor_other (rs : RaceSystem) (id k : Int) (hk : k ≠ id) :
    (getCompetitor rs id).1.Competitors k = rs.Competitors k := by
  unfold getCompetitor
  cases h : rs.Competitors id <;> simp [setCompetitor, hk]

theorem getCompetitor_CurrentLap (rs : RaceSystem) (id : Int) :
    (getCompetitor rs id).1.CurrentLap = rs.CurrentLap := by
  unfold getCompetitor
  cases h : rs.Competitors id <;> simp [setCompetitor]

theorem getCompetitor_Config (rs : RaceSystem) (id : Int) :
    (getCompetitor rs id).1.Config = rs.Config := by
  unfold getCompetitor
  cases h : rs.Competitors id <;> simp [setCompetitor]

theorem getCompetitor_present (rs : RaceSystem) (id : Int) (comp : Competitor)
    (h : rs.Competitors id = some comp) : getCompetitor rs id = (rs, comp) := by
  simp [getCompetitor, h]

theorem getCompetitor_absent (rs : RaceSystem) (id : Int) (h : rs.Competitors id = none) :
    getCompetitor rs id = (setCompetitor rs id (newCompetitor id), newCompetitor id) := by
  simp [getCompetitor, h]

theorem setCompetitor_same (rs : RaceSystem) (id : Int) (comp : Competitor)
    (h : rs.Competitors id = some comp) : setCompetitor rs id comp = rs := by
  cases rs with
  | mk cfg comps lap =>
    simp only [setCompetitor, RaceSystem.mk.injEq, true_and, and_true]
    funext k
    by_cases hk : k = id
    · subst hk; simpa using h.symm
    · simp [hk]

theorem setCompetitor_getCompetitor (rs : RaceSystem) (id : Int) :
    setCompetitor (getCompetitor rs id).1 id (getCompetitor rs id).2 = (getCompetitor rs id).1 :=
  setCompetitor_same _ _ _ (getCompetitor_lookup rs id)

theorem ProcessEvent_badTime (rs : RaceSystem) (now : Time) (timeStr : String)
    (eventID c : Int) (params : String) (ht : timeParseMilli timeStr = none) :
    ProcessEvent rs now timeStr eventID c params =
      some { rs := rs, logs := [], err := some .badTimeFormat } := by
  simp [ProcessEvent, ht]

theorem ProcessEvent_lapCompleted (rs : RaceSystem) (now : Time) (timeStr : String) (c : Int)
    (params : String) (t : Time) (ht : timeParseMilli timeStr = some t) :
    ProcessEvent rs now timeStr EventLapCompleted c params =
      some (commit c
        (processLapCompletion (getCompetitor rs c).1 (getCompetitor rs c).2 t timeStr)) := by
  simp [ProcessEvent, ht, EventLapCompleted, EventRegistration, EventStartTimeSet,
    EventOnStartLine, EventStarted, EventOnFiringRange, EventShot, EventLeftFiringRange,
    EventEnteredPenalty, EventLeftPenalty]

/-! ## Log lines -/

theorem outgoing_head (tm : Time) (kind id : Int) (msg ts : String) :
    (generateOutgoingEvent tm kind id msg ts).event.data.head? = some '[' := by
  unfold generateOutgoingEvent
  split <;> simp [String.data_append]

theorem not_outgoing_of_head (kind : Int) (l : LogLine) (h : l.event.data.head? ≠ some '[') :
    ¬ IsOutgoing kind l := by
  rintro ⟨tm, id, msg, hl⟩
  apply h
  rw [hl]
  exact outgoing_head tm kind id msg _

/-! ## C1 -/

/-- C1: a `LapCompleted` event with a valid timestamp succeeds, adds one to
`LapsCompleted` and leaves `PenaltyLaps`; when the new `LapsCompleted` reaches the
configured laps and `PenaltyLaps` is zero it sets `Finished` and writes the
synthesized `Finished` event, and otherwise `Finished` keeps its value and no
`Finished` event is written. -/
theorem lapCompleted_finishes_iff (rs : RaceSystem) (now : Time) (timeStr : String) (c : Int)
    (params : String) (t : Time) (ht : timeParseMilli timeStr = some t) :
    ∃ out after, ProcessEvent rs now timeStr EventLapCompleted c params = some out ∧
      out.err = none ∧ out.rs.Competitors c = some after ∧
      after.LapsCompleted = (getCompetitor rs c).2.LapsCompleted + 1 ∧
      after.PenaltyLaps = (getCompetitor rs c).2.PenaltyLaps ∧
      ((after.LapsCompleted ≥ rs.Config.Laps ∧ after.PenaltyLaps = 0) →
        after.Finished = true ∧
        generateOutgoingEvent t EventFinished (getCompetitor rs c).2.ID "" timeStr ∈ out.logs) ∧
      (¬ (after.LapsCompleted ≥ rs.Config.Laps ∧ after.PenaltyLaps = 0) →
        after.Finished = (getCompetitor rs c).2.Finished ∧
        ∀ l ∈ out.logs, ¬ IsOutgoing EventFinished l) := by
  rw [ProcessEvent_lapCompleted rs now timeStr c params t ht]
  have hcfg := getCompetitor_Config rs c
  by_cases hfin : (getCompetitor rs c).2.LapsCompleted + 1 ≥ rs.Config.Laps ∧
      (getCompetitor rs c).2.PenaltyLaps = 0
  · refine ⟨_, { (getCompetitor rs c).2 with
        LapsCompleted := (getCompetitor rs c).2.LapsCompleted + 1, Finished := true }, rfl, ?_⟩
    have hfin2 := hfin
    rw [← hcfg] at hfin2
    by_cases hlap : (getCompetitor rs c).2.LapsCompleted + 1 > (getCompetitor rs c).1.CurrentLap <;>
      simp [commit, processLapCompletion, finishCompetitor, setCompetitor, hlap, hfin, hfin2,
        hcfg]
  · refine ⟨_, { (getCompetitor rs c).2 with
        LapsCompleted := (getCompetitor rs c).2.LapsCompleted + 1 }, rfl, ?_⟩
    have hfin2 := hfin
    rw [← hcfg] at hfin2
    have hne : ¬ IsOutgoing EventFinished
        ⟨timeStr, "The competitor(" ++ toString (getCompetitor rs c).2.ID ++
          ") ended the main lap"⟩ :=
      not_outgoing_of_head _ _ (by simp [String.data_append])
    by_cases hlap : (getCompetitor rs c).2.LapsCompleted + 1 > (getCompetitor rs c).1.CurrentLap <;>
      simp [commit, processLapCompletion, finishCompetitor, setCompetitor, hlap, hfin, hfin2,
        hcfg, hne]

/-- Instance of C1 on `threeHitsState`: the second `LapCompleted` of a two-lap race
with two penalty laps outstanding writes no `Finished` event. -/
theorem lapCompleted_finishes_iff_witness :
    timeParseMilli "10:20:00.000" = some ⟨37200000000000⟩ ∧
    (∃ out after,
      ProcessEvent threeHitsState ⟨0⟩ "10:20:00.000" EventLapCompleted 1 "" = some out ∧
      out.err = none ∧ out.rs.Competitors 1 = some after ∧
      after.LapsCompleted = (getCompetitor threeHitsState 1).2.LapsCompleted + 1 ∧
      after.PenaltyLaps = (getCompetitor threeHitsState 1).2.PenaltyLaps ∧
      ((after.LapsCompleted ≥ threeHitsState.Config.Laps ∧ after.PenaltyLaps = 0) →
        after.Finished = true ∧
        generateOutgoingEvent ⟨37200000000000⟩ EventFinished
          (getCompetitor threeHitsState 1).2.ID "" "10:20:00.000" ∈ out.logs) ∧
      (¬ (after.LapsCompleted ≥ threeHitsState.Config.Laps ∧ after.PenaltyLaps = 0) →
        after.Finished = (getCompetitor threeHitsState 1).2.Finished ∧
        ∀ l ∈ out.logs, ¬ IsOutgoing EventFinished l)) ∧
    (getCompetitor threeHitsState 1).2.LapsCompleted = 1 ∧
    (getCompetitor threeHitsState 1).2.PenaltyLaps = 2 ∧
    threeHitsState.Config.Laps = 2 :=
  ⟨by decide,
   lapCompleted_finishes_iff threeHitsState ⟨0⟩ "10:20:00.000" 1 "" ⟨37200000000000⟩ (by decide),
   by decide, by decide, by decide⟩

/-! ## Dispatch of `ProcessEvent` by event identifier -/

theorem ProcessEvent_registration (rs : RaceSystem) (now : Time) (timeStr : String) (c : Int)
    (params : String) (t : Time) (ht : timeParseMilli timeStr = some t) :
    ProcessEvent rs now timeStr EventRegistration c params =
      some (commit c
        (handleRegistration (getCompetitor rs c).1 timeStr (getCompetitor rs c).2)) := by
  simp [ProcessEvent, ht]

theorem ProcessEvent_started (rs : RaceSystem) (now : Time) (timeStr : String) (c : Int)
    (params : String) (t : Time) (ht : timeParseMilli timeStr = some t) :
    ProcessEvent rs now timeStr EventStarted c params =
      some (commit c
        (handleStart (getCompetitor rs c).1 (getCompetitor rs c).2 t now timeStr)) := by
  simp [ProcessEvent, ht, EventRegistration, EventStartTimeSet, EventOnStartLine, EventStarted]

theorem ProcessEvent_onFiringRange (rs : RaceSystem) (now : Time) (timeStr : String) (c : Int)
    (params : String) (t : Time) (rangeNum : Int) (ht : timeParseMilli timeStr = some t)
    (hp : parseInt params = .ok rangeNum) :
    ProcessEvent rs now timeStr EventOnFiringRange c params =
      some (commit c
        (handleFiringRangeEntry (getCompetitor rs c).1 (getCompetitor rs c).2 rangeNum
          timeStr)) := by
  simp [ProcessEvent, ht, hp, EventRegistration, EventStartTimeSet, EventOnStartLine,
    EventStarted, EventOnFiringRange]

theorem ProcessEvent_shot (rs : RaceSystem) (now : Time) (timeStr : String) (c : Int)
    (params : String) (t : Time) (target : Int) (ht : timeParseMilli timeStr = some t)
    (hp : parseInt params = .ok target) :
    ProcessEvent rs now timeStr EventShot c params =
      (processShot (getCompetitor rs c).1 (getCompetitor rs c).2 target timeStr).map
        (commit c) := by
  simp [ProcessEvent, ht, hp, EventRegistration, EventStartTimeSet, EventOnStartLine,
    EventStarted, EventOnFiringRange, EventShot]

theorem ProcessEvent_leftFiringRange (rs : RaceSystem) (now : Time) (timeStr : String)
    (c : Int) (params : String) (t : Time) (ht : timeParseMilli timeStr = some t) :
    ProcessEvent rs now timeStr EventLeftFiringRange c params =
      (processRangeExit (getCompetitor rs c).1 (getCompetitor rs c).2 timeStr).map
        (commit c) := by
  simp [ProcessEvent, ht, EventRegistration, EventStartTimeSet, EventOnStartLine,
    EventStarted, EventOnFiringRange, EventShot, EventLeftFiringRange]

theorem ProcessEvent_leftPenalty (rs : RaceSystem) (now : Time) (timeStr : String) (c : Int)
    (params : String) (t : Time) (ht : timeParseMilli timeStr = some t) :
    ProcessEvent rs now timeStr EventLeftPenalty c params =
      some (commit c
        (processPenaltyExit (getCompetitor rs c).1 (getCompetitor rs c).2 timeStr)) := by
  simp [ProcessEvent, ht, EventRegistration, EventStartTimeSet, EventOnStartLine,
    EventStarted, EventOnFiringRange, EventShot, EventLeftFiringRange, EventEnteredPenalty,
    EventLeftPenalty]

/-! ## Effect of each handler -/

theorem StepOK_unchanged (rs : RaceSystem) (comp : Competitor) (logs : List LogLine)
    (err : Option RaceError) : StepOK rs comp { rs := rs, comp := comp, logs := logs, err := err } :=
  ⟨rfl, rfl, fun h => h, Or.inl ⟨rfl, rfl⟩, fun h => h, fun _ => ⟨rfl, rfl⟩⟩

theorem StepOK_handleRegistration (rs : RaceSystem) (timeStr : String) (comp : Competitor) :
    StepOK rs comp (handleRegistration rs timeStr comp) := by
  unfold handleRegistration
  split
  · exact StepOK_unchanged _ _ _ _
  · exact ⟨rfl, rfl, fun h => h, Or.inl ⟨rfl, rfl⟩, fun h => h, fun h => absurd rfl h⟩

theorem StepOK_handleStartTimeSet (rs : RaceSystem) (comp : Competitor) (params timeStr : String) :
    StepOK rs comp (handleStartTimeSet rs comp params timeStr) := by
  unfold handleStartTimeSet
  split
  · exact StepOK_unchanged _ _ _ _
  · exact ⟨rfl, rfl, fun h => h, Or.inl ⟨rfl, rfl⟩, fun h => h, fun h => absurd rfl h⟩

theorem StepOK_disqualify (rs : RaceSystem) (comp : Competitor) (reason : String) (now : Time)
    (timeStr : String) : StepOK rs comp (disqualify rs comp reason now timeStr) :=
  ⟨rfl, rfl, fun h => h, Or.inl ⟨rfl, rfl⟩, fun h => h, fun h => absurd rfl h⟩

theorem StepOK_handleStart (rs : RaceSystem) (comp : Competitor) (startTime now : Time)
    (timeStr : String) : StepOK rs comp (handleStart rs comp startTime now timeStr) := by
  unfold handleStart
  simp only
  split
  · exact ⟨rfl, rfl, fun h => h, Or.inl ⟨rfl, rfl⟩, fun h => h, fun h => absurd rfl h⟩
  · exact ⟨rfl, rfl, fun h => h, Or.inl ⟨rfl, rfl⟩, fun h => h, fun h => absurd rfl h⟩

theorem StatsOK_append (config : Config) (stats : List (List (List Bool)))
    (h : StatsOK config stats) (hlines : 1 ≤ config.FiringLines) :
    StatsOK config (stats ++ [List.replicate config.FiringLines.toNat []]) := by
  intro entry hentry
  rcases List.mem_append.mp hentry with hmem | hmem
  · exact h entry hmem
  · have hnew : entry = List.replicate config.FiringLines.toNat [] := by simpa using hmem
    subst hnew
    refine ⟨?_, hlines, ?_⟩
    · simp only [List.length_replicate]
      omega
    · intro l hl
      rw [List.tail_replicate] at hl
      exact (List.mem_replicate.mp hl).2

theorem StatsOK_set (config : Config) (stats : List (List (List Bool))) (lap : Nat)
    (shots : List Bool) (h : StatsOK config stats) (hlap : lap < stats.length) :
    StatsOK config (List.set stats lap (List.set (stats.getD lap []) 0 shots)) := by
  have hmem : stats.getD lap [] ∈ stats := by
    rw [List.getD_eq_getElem stats [] hlap]
    exact List.getElem_mem hlap
  intro entry hentry
  rcases List.mem_or_eq_of_mem_set hentry with hold | hnew
  · exact h entry hold
  · obtain ⟨hlen, hlines, htail⟩ := h _ hmem
    subst hnew
    refine ⟨by simpa using hlen, hlines, ?_⟩
    cases hcase : stats.getD lap [] with
    | nil => simp
    | cons hd tl =>
      rw [hcase] at htail
      simpa using htail

theorem StepOK_handleFiringRangeEntry (rs : RaceSystem) (comp : Competitor) (rangeNum : Int)
    (timeStr : String) : StepOK rs comp (handleFiringRangeEntry rs comp rangeNum timeStr) := by
  unfold handleFiringRangeEntry
  split
  · exact StepOK_unchanged _ _ _ _
  · rename_i hrange
    have hlines : 1 ≤ rs.Config.FiringLines := by omega
    refine ⟨rfl, rfl, ?_, Or.inl ⟨rfl, ?_⟩, ?_, fun h => absurd rfl h⟩
    · unfold initShootingStats
      split <;> exact fun h => h
    · unfold initShootingStats
      split <;> rfl
    · intro hstats
      unfold initShootingStats
      split
      · exact StatsOK_append _ _ hstats hlines
      · exact hstats

theorem StepOK_processShot (rs : RaceSystem) (comp : Competitor) (target : Int)
    (timeStr : String) (s : Step) (h : processShot rs comp target timeStr = some s) :
    StepOK rs comp s := by
  unfold processShot at h
  split at h
  · cases h; exact StepOK_unchanged _ _ _ _
  · rename_i hlen
    split at h
    · cases h
    · rename_i hneg
      simp only at h
      split at h
      · cases h; exact StepOK_unchanged _ _ _ _
      · cases h
        have hlap : rs.CurrentLap.toNat < comp.ShootingStats.length := by omega
        refine ⟨rfl, rfl, ?_, Or.inl ⟨rfl, ?_⟩, ?_, fun h => absurd rfl h⟩
        · simp [determineHit]
        · simp [determineHit]
        · intro hstats
          simpa [determineHit] using StatsOK_set rs.Config comp.ShootingStats _ _ hstats hlap

theorem StepOK_processRangeExit (rs : RaceSystem) (comp : Competitor) (timeStr : String)
    (s : Step) (h : processRangeExit rs comp timeStr = some s) : StepOK rs comp s := by
  unfold processRangeExit at h
  simp only at h
  split at h
  · cases h; exact StepOK_unchanged _ _ _ _
  · split at h
    · cases h
    · split at h
      · cases h; exact StepOK_unchanged _ _ _ _
      · split at h
        · rename_i hmiss
          cases h
          refine ⟨rfl, rfl, ?_, Or.inl ⟨rfl, rfl⟩, fun h => h, fun h => absurd rfl h⟩
          intro hpen
          show 0 ≤ comp.PenaltyLaps + _
          omega
        · cases h; exact StepOK_unchanged _ _ _ _

theorem StepOK_processPenaltyEntry (rs : RaceSystem) (comp : Competitor) (timeStr : String) :
    StepOK rs comp (processPenaltyEntry rs comp timeStr) := by
  unfold processPenaltyEntry
  split
  · exact StepOK_unchanged _ _ _ _
  · exact ⟨rfl, rfl, fun h => h, Or.inl ⟨rfl, rfl⟩, fun h => h, fun h => absurd rfl h⟩

theorem StepOK_processPenaltyExit (rs : RaceSystem) (comp : Competitor) (timeStr : String) :
    StepOK rs comp (processPenaltyExit rs comp timeStr) := by
  unfold processPenaltyExit
  split
  · exact StepOK_unchanged _ _ _ _
  · rename_i hpos
    refine ⟨rfl, rfl, ?_, Or.inl ⟨rfl, rfl⟩, fun h => h, fun h => absurd rfl h⟩
    intro _
    show 0 ≤ comp.PenaltyLaps - 1
    omega

theorem StepOK_processLapCompletion (rs : RaceSystem) (comp : Competitor) (t : Time)
    (timeStr : String) : StepOK rs comp (processLapCompletion rs comp t timeStr) := by
  unfold processLapCompletion
  simp only
  by_cases hlap : comp.LapsCompleted + 1 > rs.CurrentLap
  · simp only [hlap, if_true]
    split
    · refine ⟨rfl, rfl, fun h => h, Or.inr ⟨rfl, ?_⟩, fun h => h, fun h => absurd rfl h⟩
      show comp.LapsCompleted + 1 = max rs.CurrentLap (comp.LapsCompleted + 1)
      omega
    · refine ⟨rfl, rfl, fun h => h, Or.inr ⟨rfl, ?_⟩, fun h => h, fun h => absurd rfl h⟩
      show comp.LapsCompleted + 1 = max rs.CurrentLap (comp.LapsCompleted + 1)
      omega
  · simp only [hlap, if_false]
    split
    · refine ⟨rfl, rfl, fun h => h, Or.inr ⟨rfl, ?_⟩, fun h => h, fun h => absurd rfl h⟩
      show rs.CurrentLap = max rs.CurrentLap (comp.LapsCompleted + 1)
      omega
    · refine ⟨rfl, rfl, fun h => h, Or.inr ⟨rfl, ?_⟩, fun h => h, fun h => absurd rfl h⟩
      show rs.CurrentLap = max rs.CurrentLap (comp.LapsCompleted + 1)
      omega

/-! ## Every call of `ProcessEvent` is a handler step on the looked-up record -/

theorem commit_unchanged (rs : RaceSystem) (c : Int) (logs : List LogLine)
    (err : Option RaceError) :
    commit c { rs := (getCompetitor rs c).1, comp := (getCompetitor rs c).2, logs := logs,
               err := err } =
      { rs := (getCompetitor rs c).1, logs := logs, err := err } := by
  simp [commit, setCompetitor_getCompetitor]

theorem ProcessEvent_cases (rs : RaceSystem) (now : Time) (timeStr : String)
    (eventID c : Int) (params : String) (out : Outcome)
    (h : ProcessEvent rs now timeStr eventID c params = some out) :
    (timeParseMilli timeStr = none ∧ out = { rs := rs, logs := [], err := some .badTimeFormat }) ∨
    ∃ s, StepOK (getCompetitor rs c).1 (getCompetitor rs c).2 s ∧ out = commit c s := by
  unfold ProcessEvent at h
  split at h
  · rename_i ht
    left
    exact ⟨ht, by cases h; rfl⟩
  · right
    dsimp only at h
    by_cases h1 : eventID = EventRegistration
    · rw [if_pos h1] at h
      exact ⟨_, StepOK_handleRegistration _ _ _, by cases h; rfl⟩
    rw [if_neg h1] at h
    by_cases h2 : eventID = EventStartTimeSet
    · rw [if_pos h2] at h
      exact ⟨_, StepOK_handleStartTimeSet _ _ _ _, by cases h; rfl⟩
    rw [if_neg h2] at h
    by_cases h3 : eventID = EventOnStartLine
    · rw [if_pos h3] at h
      refine ⟨_, StepOK_unchanged _ _ [] none, ?_⟩
      cases h
      exact (commit_unchanged rs c [] none).symm
    rw [if_neg h3] at h
    by_cases h4 : eventID = EventStarted
    · rw [if_pos h4] at h
      exact ⟨_, StepOK_handleStart _ _ _ _ _, by cases h; rfl⟩
    rw [if_neg h4] at h
    by_cases h5 : eventID = EventOnFiringRange
    · rw [if_pos h5] at h
      split at h
      · rename_i e he
        refine ⟨_, StepOK_unchanged _ _ [] (some e), ?_⟩
        cases h
        exact (commit_unchanged rs c [] (some e)).symm
      · exact ⟨_, StepOK_handleFiringRangeEntry _ _ _ _, by cases h; rfl⟩
    rw [if_neg h5] at h
    by_cases h6 : eventID = EventShot
    · rw [if_pos h6] at h
      split at h
      · rename_i e he
        refine ⟨_, StepOK_unchanged _ _ [] (some e), ?_⟩
        cases h
        exact (commit_unchanged rs c [] (some e)).symm
      · rename_i target hp
        cases hs : processShot (getCompetitor rs c).1 (getCompetitor rs c).2 target timeStr with
        | none => simp [hs] at h
        | some s =>
          rw [hs] at h
          exact ⟨s, StepOK_processShot _ _ _ _ _ hs, by cases h; rfl⟩
    rw [if_neg h6] at h
    by_cases h7 : eventID = EventLeftFiringRange
    · rw [if_pos h7] at h
      cases hs : processRangeExit (getCompetitor rs c).1 (getCompetitor rs c).2 timeStr with
      | none => simp [hs] at h
      | some s =>
        rw [hs] at h
        exact ⟨s, StepOK_processRangeExit _ _ _ _ hs, by cases h; rfl⟩
    rw [if_neg h7] at h
    by_cases h8 : eventID = EventEnteredPenalty
    · rw [if_pos h8] at h
      exact ⟨_, StepOK_processPenaltyEntry _ _ _, by cases h; rfl⟩
    rw [if_neg h8] at h
    by_cases h9 : eventID = EventLeftPenalty
    · rw [if_pos h9] at h
      exact ⟨_, StepOK_processPenaltyExit _ _ _, by cases h; rfl⟩
    rw [if_neg h9] at h
    by_cases h10 : eventID = EventLapCompleted
    · rw [if_pos h10] at h
      exact ⟨_, StepOK_processLapCompletion _ _ _ _, by cases h; rfl⟩
    rw [if_neg h10] at h
    by_cases h11 : eventID = EventCannotContinue
    · rw [if_pos h11] at h
      exact ⟨_, StepOK_disqualify _ _ _ _ _, by cases h; rfl⟩
    rw [if_neg h11] at h
    refine ⟨_, StepOK_unchanged _ _ [] (some (.unknownEvent eventID)), ?_⟩
    cases h
    exact (commit_unchanged rs c [] _).symm

/-! ## The invariant holds in every reachable state -/

theorem Inv_NewRaceSystem (config : Config) : Inv (NewRaceSystem config) :=
  ⟨le_refl _, fun _ _ h => by simp [NewRaceSystem] at h,
   fun _ _ h => by simp [NewRaceSystem] at h, fun _ _ h => by simp [NewRaceSystem] at h,
   Or.inl rfl, fun _ _ h => by simp [NewRaceSystem] at h⟩

theorem newCompetitor_StatsOK (config : Config) (id : Int) :
    StatsOK config (newCompetitor id).ShootingStats := by
  intro entry hentry
  simp [newCompetitor] at hentry

theorem Inv_getCompetitor (rs : RaceSystem) (c : Int) (h : Inv rs) :
    Inv (getCompetitor rs c).1 := by
  cases hc : rs.Competitors c with
  | some comp => rw [getCompetitor_present rs c comp hc]; exact h
  | none =>
    rw [getCompetitor_absent rs c hc]
    have key : ∀ id comp, (setCompetitor rs c (newCompetitor c)).Competitors id = some comp →
        comp = newCompetitor c ∨ rs.Competitors id = some comp := by
      intro id comp hid
      simp only [setCompetitor] at hid
      split at hid
      · left; cases hid; rfl
      · right; exact hid
    refine ⟨h.lap_nonneg, ?_, ?_, ?_, ?_, ?_⟩
    · intro id comp hid
      rcases key id comp hid with heq | hold
      · subst heq; simp [newCompetitor]
      · exact h.pen id comp hold
    · intro id comp hid
      rcases key id comp hid with heq | hold
      · subst heq; simp [newCompetitor]
      · exact h.laps_nonneg id comp hold
    · intro id comp hid
      rcases key id comp hid with heq | hold
      · subst heq; exact h.lap_nonneg
      · exact h.laps_le id comp hold
    · rcases h.attained with hzero | ⟨id, comp, hid, hlaps⟩
      · exact Or.inl hzero
      · refine Or.inr ⟨id, comp, ?_, hlaps⟩
        have hne : id ≠ c := by
          rintro rfl
          rw [hc] at hid
          cases hid
        simp [setCompetitor, hne, hid]
    · intro id comp hid
      rcases key id comp hid with heq | hold
      · subst heq; exact newCompetitor_StatsOK _ _
      · exact h.stats id comp hold

theorem Inv_commit (rs : RaceSystem) (c : Int) (comp : Competitor) (s : Step) (h : Inv rs)
    (hc : rs.Competitors c = some comp) (hs : StepOK rs comp s) : Inv (commit c s).rs := by
  have key : ∀ id comp1, (commit c s).rs.Competitors id = some comp1 →
      (id = c ∧ comp1 = s.comp) ∨ (id ≠ c ∧ rs.Competitors id = some comp1) := by
    intro id comp1 hid
    simp only [commit, setCompetitor, hs.comps] at hid
    split at hid
    · rename_i hidc
      left
      exact ⟨hidc, by cases hid; rfl⟩
    · rename_i hidc
      right
      exact ⟨hidc, hid⟩
  have hlap : (commit c s).rs.CurrentLap = s.rs.CurrentLap := rfl
  have hcfg : (commit c s).rs.Config = rs.Config := hs.config
  have hself : (commit c s).rs.Competitors c = some s.comp := by simp [commit, setCompetitor]
  have hkeep : ∀ id, id ≠ c → (commit c s).rs.Competitors id = rs.Competitors id := by
    intro id hid
    simp [commit, setCompetitor, hs.comps, hid]
  have hlaps := hs.laps
  have h0 := h.lap_nonneg
  have hcl := h.laps_le c comp hc
  have hcn := h.laps_nonneg c comp hc
  refine ⟨?_, ?_, ?_, ?_, ?_, ?_⟩
  · rw [hlap]; omega
  · intro id comp1 hid
    rcases key id comp1 hid with ⟨_, heq⟩ | ⟨_, hold⟩
    · subst heq; exact hs.pen (h.pen c comp hc)
    · exact h.pen id comp1 hold
  · intro id comp1 hid
    rcases key id comp1 hid with ⟨_, heq⟩ | ⟨_, hold⟩
    · subst heq; omega
    · exact h.laps_nonneg id comp1 hold
  · intro id comp1 hid
    rw [hlap]
    rcases key id comp1 hid with ⟨_, heq⟩ | ⟨_, hold⟩
    · subst heq; omega
    · have := h.laps_le id comp1 hold
      omega
  · rw [hlap]
    by_cases hnew : s.comp.LapsCompleted = s.rs.CurrentLap
    · exact Or.inr ⟨c, s.comp, hself, hnew⟩
    · rcases h.attained with hzero | ⟨id, comp1, hid, hatt⟩
      · left; omega
      · by_cases hidc : id = c
        · subst hidc
          rw [hc] at hid
          cases hid
          omega
        · refine Or.inr ⟨id, comp1, ?_, ?_⟩
          · rw [hkeep id hidc]; exact hid
          · omega
  · intro id comp1 hid
    rw [hcfg]
    rcases key id comp1 hid with ⟨_, heq⟩ | ⟨_, hold⟩
    · subst heq; exact hs.stats (h.stats c comp hc)
    · exact h.stats id comp1 hold

theorem Inv_ProcessEvent (rs : RaceSystem) (now : Time) (timeStr : String)
    (eventID c : Int) (params : String) (out : Outcome) (h : Inv rs)
    (hout : ProcessEvent rs now timeStr eventID c params = some out) : Inv out.rs := by
  rcases ProcessEvent_cases rs now timeStr eventID c params out hout with ⟨_, heq⟩ | ⟨s, hs, heq⟩
  · subst heq; exact h
  · subst heq
    exact Inv_commit _ c _ s (Inv_getCompetitor rs c h) (getCompetitor_lookup rs c) hs

theorem Inv_stepEvent (rs : RaceSystem) (e : Event) (h : Inv rs) : Inv (stepEvent rs e) := by
  unfold stepEvent
  split
  · rename_i out hout
    exact Inv_ProcessEvent rs _ _ _ _ _ out h hout
  · exact h

theorem Inv_runEvents (events : List Event) (rs : RaceSystem) (h : Inv rs) :
    Inv (runEvents rs events) := by
  induction events generalizing rs with
  | nil => exact h
  | cons e rest ih => exact ih (stepEvent rs e) (Inv_stepEvent rs e h)

theorem Inv_of_Reachable (config : Config) (rs : RaceSystem) (h : Reachable config rs) :
    Inv rs := by
  obtain ⟨events, rfl⟩ := h
  exact Inv_runEvents events _ (Inv_NewRaceSystem config)

theorem Config_runEvents (events : List Event) (rs : RaceSystem) :
    (runEvents rs events).Config = rs.Config := by
  induction events generalizing rs with
  | nil => rfl
  | cons e rest ih =>
    show (runEvents (stepEvent rs e) rest).Config = rs.Config
    rw [ih]
    unfold stepEvent
    split
    · rename_i out hout
      rcases ProcessEvent_cases rs _ _ _ _ _ out hout with ⟨_, heq⟩ | ⟨s, hs, heq⟩
      · subst heq; rfl
      · subst heq
        exact hs.config.trans (getCompetitor_Config rs _)
    · rfl

theorem Config_of_Reachable (config : Config) (rs : RaceSystem) (h : Reachable config rs) :
    rs.Config = config := by
  obtain ⟨events, rfl⟩ := h
  exact Config_runEvents events _

/-! ## C2 -/

/-- C2: in every state reachable from the initial race state by any sequence of
`ProcessEvent` calls, every competitor record has `PenaltyLaps ≥ 0`. -/
theorem penaltyLaps_nonneg (config : Config) (rs : RaceSystem) (id : Int) (comp : Competitor)
    (hreach : Reachable config rs) (hcomp : rs.Competitors id = some comp) :
    0 ≤ comp.PenaltyLaps :=
  (Inv_of_Reachable config rs hreach).pen id comp hcomp

/-- Instance of C2 on `threeHitsState`, where competitor 1 owes two penalty laps. -/
theorem penaltyLaps_nonneg_witness :
    Reachable raceConfig threeHitsState ∧
    threeHitsState.Competitors 1 = some (getCompetitor threeHitsState 1).2 ∧
    0 ≤ (getCompetitor threeHitsState 1).2.PenaltyLaps :=
  ⟨⟨threeHitsFeed, rfl⟩, by decide,
   penaltyLaps_nonneg raceConfig threeHitsState 1 (getCompetitor threeHitsState 1).2
     ⟨threeHitsFeed, rfl⟩ (by decide)⟩

/-! ## C3 -/

theorem clock_fields (h m s : Int) (hh : 0 ≤ h ∧ h < 24) (hm : 0 ≤ m ∧ m < 60)
    (hs : 0 ≤ s ∧ s < 60) :
    Time.Hour ⟨h * nsPerHour + m * nsPerMinute + s * nsPerSecond⟩ = h ∧
    Time.Minute ⟨h * nsPerHour + m * nsPerMinute + s * nsPerSecond⟩ = m ∧
    Time.Second ⟨h * nsPerHour + m * nsPerMinute + s * nsPerSecond⟩ = s := by
  simp only [Time.Hour, Time.Minute, Time.Second, nsPerHour, nsPerMinute, nsPerSecond]
  omega

/-- C3: with a start window of `h` hours, `m` minutes and `s` seconds, a `Started`
event with timestamp `t` succeeds and sets `ActualStart` to `t`; when `t` is
strictly later than `ScheduledStart` plus the window it sets `Disqualified` and
writes the synthesized `Disqualified` event, and otherwise (equality included)
`Disqualified` keeps its value and no `Disqualified` event is written. -/
theorem started_disqualifies_iff_late (rs : RaceSystem) (now : Time) (timeStr : String)
    (c : Int) (params : String) (t : Time) (h m s : Int)
    (ht : timeParseMilli timeStr = some t)
    (hdelta : timeParseSeconds rs.Config.StartDelta =
      some ⟨h * nsPerHour + m * nsPerMinute + s * nsPerSecond⟩)
    (hh : 0 ≤ h ∧ h < 24) (hm : 0 ≤ m ∧ m < 60) (hs : 0 ≤ s ∧ s < 60) :
    ∃ out after, ProcessEvent rs now timeStr EventStarted c params = some out ∧
      out.err = none ∧ out.rs.Competitors c = some after ∧ after.ActualStart = t ∧
      ((getCompetitor rs c).2.ScheduledStart.ns +
          (h * nsPerHour + m * nsPerMinute + s * nsPerSecond) < t.ns →
        after.Disqualified = true ∧
        generateOutgoingEvent now EventDisqualified (getCompetitor rs c).2.ID
          ("опоздание на старт (допустимо до " ++
            ((getCompetitor rs c).2.ScheduledStart.Add
              (h * nsPerHour + m * nsPerMinute + s * nsPerSecond)).Format ++ ")")
          timeStr ∈ out.logs) ∧
      (¬ ((getCompetitor rs c).2.ScheduledStart.ns +
          (h * nsPerHour + m * nsPerMinute + s * nsPerSecond) < t.ns) →
        after.Disqualified = (getCompetitor rs c).2.Disqualified ∧
        ∀ l ∈ out.logs, ¬ IsOutgoing EventDisqualified l) := by
  rw [ProcessEvent_started rs now timeStr c params t ht]
  obtain ⟨hH, hM, hS⟩ := clock_fields h m s hh hm hs
  have hcfg := getCompetitor_Config rs c
  have hd : timeParseSeconds (getCompetitor rs c).1.Config.StartDelta =
      some ⟨h * nsPerHour + m * nsPerMinute + s * nsPerSecond⟩ := by rw [hcfg]; exact hdelta
  by_cases hlate : (getCompetitor rs c).2.ScheduledStart.ns +
      (h * nsPerHour + m * nsPerMinute + s * nsPerSecond) < t.ns
  · refine ⟨_, { (getCompetitor rs c).2 with ActualStart := t, Disqualified := true }, rfl, ?_⟩
    simp [commit, handleStart, disqualify, setCompetitor, hd, hH, hM, hS, Time.After, Time.Add,
      hlate]
  · refine ⟨_, { (getCompetitor rs c).2 with ActualStart := t }, rfl, ?_⟩
    have hne : ¬ IsOutgoing EventDisqualified
        ⟨timeStr, "The competitor(" ++ toString (getCompetitor rs c).2.ID ++ ") has started"⟩ :=
      not_outgoing_of_head _ _ (by simp [String.data_append])
    simp [commit, handleStart, disqualify, setCompetitor, hd, hH, hM, hS, Time.After, Time.Add,
      hlate, hne]

/-- Instance of C3: scheduled `10:00:00.000`, window `0:00:05`, started `10:00:06.000`. -/
theorem started_disqualifies_iff_late_witness :
    (timeParseMilli "10:00:06.000" = some ⟨36006000000000⟩ ∧
     timeParseSeconds drawnState.Config.StartDelta =
       some ⟨0 * nsPerHour + 0 * nsPerMinute + 5 * nsPerSecond⟩ ∧
     ((0 : Int) ≤ 0 ∧ (0 : Int) < 24) ∧ ((0 : Int) ≤ 0 ∧ (0 : Int) < 60) ∧
     ((0 : Int) ≤ 5 ∧ (5 : Int) < 60)) ∧
    (∃ out after, ProcessEvent drawnState ⟨43200000000000⟩ "10:00:06.000" EventStarted 1 "" =
        some out ∧
      out.err = none ∧ out.rs.Competitors 1 = some after ∧
      after.ActualStart = ⟨36006000000000⟩ ∧
      ((getCompetitor drawnState 1).2.ScheduledStart.ns +
          (0 * nsPerHour + 0 * nsPerMinute + 5 * nsPerSecond) < (36006000000000 : Int) →
        after.Disqualified = true ∧
        generateOutgoingEvent ⟨43200000000000⟩ EventDisqualified (getCompetitor drawnState 1).2.ID
          ("опоздание на старт (допустимо до " ++
            ((getCompetitor drawnState 1).2.ScheduledStart.Add
              (0 * nsPerHour + 0 * nsPerMinute + 5 * nsPerSecond)).Format ++ ")")
          "10:00:06.000" ∈ out.logs) ∧
      (¬ ((getCompetitor drawnState 1).2.ScheduledStart.ns +
          (0 * nsPerHour + 0 * nsPerMinute + 5 * nsPerSecond) < (36006000000000 : Int)) →
        after.Disqualified = (getCompetitor drawnState 1).2.Disqualified ∧
        ∀ l ∈ out.logs, ¬ IsOutgoing EventDisqualified l)) ∧
    (getCompetitor drawnState 1).2.ScheduledStart.ns +
      (0 * nsPerHour + 0 * nsPerMinute + 5 * nsPerSecond) < (36006000000000 : Int) :=
  ⟨⟨by decide, by decide, by decide, by decide, by decide⟩,
   started_disqualifies_iff_late drawnState ⟨43200000000000⟩ "10:00:06.000" 1 ""
     ⟨36006000000000⟩ 0 0 5 (by decide) (by decide) (by decide) (by decide) (by decide),
   by decide⟩

/-! ## C4 -/

theorem commit_lookup (c : Int) (s : Step) : (commit c s).rs.Competitors c = some s.comp := by
  simp [commit, setCompetitor]

theorem sum_countHits_of_empty (slots : List (List Bool)) (h : ∀ l ∈ slots, l = []) :
    (slots.map countHits).sum = 0 := by
  induction slots with
  | nil => rfl
  | cons hd tl ih =>
    have hhd : hd = [] := h hd (List.mem_cons_self hd tl)
    have htl : (tl.map countHits).sum = 0 := ih (fun l hl => h l (List.mem_cons_of_mem hd hl))
    subst hhd
    simp [htl, countHits]

theorem hitsRecorded_eq_slot_zero (rs : RaceSystem) (comp : Competitor)
    (hstats : StatsOK rs.Config comp.ShootingStats)
    (hlap : rs.CurrentLap.toNat < comp.ShootingStats.length) :
    hitsRecorded rs comp =
      countHits ((comp.ShootingStats.getD rs.CurrentLap.toNat []).getD 0 []) := by
  have hmem : comp.ShootingStats.getD rs.CurrentLap.toNat [] ∈ comp.ShootingStats := by
    rw [List.getD_eq_getElem comp.ShootingStats [] hlap]
    exact List.getElem_mem hlap
  obtain ⟨_, _, htail⟩ := hstats _ hmem
  unfold hitsRecorded
  cases hcase : comp.ShootingStats.getD rs.CurrentLap.toNat [] with
  | nil => simp [countHits]
  | cons hd tl =>
    rw [hcase] at htail
    have := sum_countHits_of_empty tl (by simpa using htail)
    simp [this]

theorem sixHitsExit_isSome :
    (ProcessEvent sixHitsState ⟨43200000000000⟩ "10:05:07.000" EventLeftFiringRange 1
      "").isSome = true := by
  decide

/-- C4, refuted as stated: after six recorded hits a successful `LeftFiringRange`
leaves `PenaltyLaps` at 0, which is not `0 + (5 − 6)`. -/
theorem leftFiringRange_exact_difference_counterexample :
    Reachable raceConfig sixHitsState ∧
    ∃ out before after,
      ProcessEvent sixHitsState ⟨43200000000000⟩ "10:05:07.000" EventLeftFiringRange 1 "" =
        some out ∧
      out.err = none ∧ sixHitsState.Competitors 1 = some before ∧
      out.rs.Competitors 1 = some after ∧ hitsRecorded sixHitsState before = 6 ∧
      before.PenaltyLaps = 0 ∧ after.PenaltyLaps = 0 ∧
      after.PenaltyLaps ≠ before.PenaltyLaps + (5 - hitsRecorded sixHitsState before) := by
  refine ⟨⟨_, rfl⟩, Option.get _ sixHitsExit_isSome, (getCompetitor sixHitsState 1).2,
    (getCompetitor (Option.get _ sixHitsExit_isSome).rs 1).2,
    (Option.some_get sixHitsExit_isSome).symm, ?_, ?_, ?_, ?_, ?_, ?_, ?_⟩ <;> decide

/-- C4, amended: in a reachable state a successful `LeftFiringRange` for a
competitor adds `5 − hits` to `PenaltyLaps` when that is positive and nothing
otherwise, where `hits` counts the hits recorded in the current lap's entry; with
exactly five hits `PenaltyLaps` is unchanged. -/
theorem leftFiringRange_adds_positive_misses (config : Config) (rs : RaceSystem) (now : Time)
    (timeStr : String) (c : Int) (params : String) (out : Outcome)
    (hreach : Reachable config rs)
    (hout : ProcessEvent rs now timeStr EventLeftFiringRange c params = some out)
    (hok : out.err = none) :
    ∃ before after, rs.Competitors c = some before ∧ out.rs.Competitors c = some after ∧
      after.PenaltyLaps = before.PenaltyLaps + max 0 (5 - hitsRecorded rs before) ∧
      (hitsRecorded rs before = 5 → after.PenaltyLaps = before.PenaltyLaps) := by
  cases ht : timeParseMilli timeStr with
  | none =>
    rw [ProcessEvent_badTime rs now timeStr _ c params ht] at hout
    cases hout
    simp at hok
  | some t =>
    rw [ProcessEvent_leftFiringRange rs now timeStr c params t ht] at hout
    have hinv := Inv_getCompetitor rs c (Inv_of_Reachable config rs hreach)
    have hlookup := getCompetitor_lookup rs c
    have hlap0 : 0 ≤ (getCompetitor rs c).1.CurrentLap := hinv.lap_nonneg
    have hlapeq := getCompetitor_CurrentLap rs c
    have hstats := hinv.stats c _ hlookup
    rw [getCompetitor_Config] at hstats
    cases hs : processRangeExit (getCompetitor rs c).1 (getCompetitor rs c).2 timeStr with
    | none => simp [hs] at hout
    | some s =>
      rw [hs] at hout
      cases hout
      unfold processRangeExit at hs
      simp only at hs
      split at hs
      · cases hs; simp [commit] at hok
      · rename_i hlen
        have hlen2 : rs.CurrentLap.toNat < (getCompetitor rs c).2.ShootingStats.length := by
          omega
        have hpresent : rs.Competitors c = some (getCompetitor rs c).2 := by
          cases hc : rs.Competitors c with
          | none =>
            rw [getCompetitor_absent rs c hc] at hlen2
            simp [newCompetitor] at hlen2
          | some comp => rw [getCompetitor_present rs c comp hc]
        have hhits := hitsRecorded_eq_slot_zero rs (getCompetitor rs c).2 hstats hlen2
        rw [hlapeq] at hs
        split at hs
        · cases hs
        · split at hs
          · cases hs; simp [commit] at hok
          · split at hs
            · rename_i hmiss
              cases hs
              refine ⟨_, _, hpresent, commit_lookup c _, ?_, ?_⟩
              · show (getCompetitor rs c).2.PenaltyLaps + _ = _
                rw [hhits]
                omega
              · intro h5
                rw [hhits] at h5
                omega
            · rename_i hmiss
              cases hs
              refine ⟨_, _, hpresent, commit_lookup c _, ?_, fun _ => rfl⟩
              show (getCompetitor rs c).2.PenaltyLaps = _
              rw [hhits]
              omega

/-- Instance of C4 (amended) on `sixHitsState`: six hits, nothing added. -/
theorem leftFiringRange_adds_positive_misses_witness :
    (Reachable raceConfig sixHitsState ∧
     ProcessEvent sixHitsState ⟨43200000000000⟩ "10:05:07.000" EventLeftFiringRange 1 "" =
       some (Option.get _ sixHitsExit_isSome) ∧
     (Option.get _ sixHitsExit_isSome).err = none) ∧
    ∃ (before after : Competitor), sixHitsState.Competitors 1 = some before ∧
      (Option.get _ sixHitsExit_isSome).rs.Competitors 1 = some after ∧
      after.PenaltyLaps = before.PenaltyLaps + max 0 (5 - hitsRecorded sixHitsState before) ∧
      (hitsRecorded sixHitsState before = 5 → after.PenaltyLaps = before.PenaltyLaps) :=
  ⟨⟨⟨_, rfl⟩, (Option.some_get sixHitsExit_isSome).symm, by decide⟩,
   leftFiringRange_adds_positive_misses raceConfig sixHitsState ⟨43200000000000⟩
     "10:05:07.000" 1 "" _ ⟨_, rfl⟩ (Option.some_get sixHitsExit_isSome).symm (by decide)⟩

/-! ## C5 -/

theorem lapAheadEntry_isSome :
    (ProcessEvent lapAheadState ⟨43200000000000⟩ "10:15:00.000" EventOnFiringRange 1
      "1").isSome = true := by
  decide

/-- C5, evaluated where it fails: after one `LapCompleted` without a range visit
(`CurrentLap = 1`, no shooting entry) a successful `OnFiringRange` appends a single
entry, so the record has one entry, none at index `CurrentLap`, and the `Shot` or
`LeftFiringRange` that follows fails for the missing lap entry. -/
theorem onFiringRange_leaves_current_lap_without_entry :
    Reachable raceConfig lapAheadState ∧
    ∃ out after,
      ProcessEvent lapAheadState ⟨43200000000000⟩ "10:15:00.000" EventOnFiringRange 1 "1" =
        some out ∧
      out.err = none ∧ out.rs.Competitors 1 = some after ∧ out.rs.CurrentLap = 1 ∧
      after.ShootingStats.length = 1 ∧
      ¬ ((after.ShootingStats.length : Int) > out.rs.CurrentLap) ∧
      Option.map Outcome.err
          (ProcessEvent out.rs ⟨43200000000000⟩ "10:15:01.000" EventShot 1 "1") =
        some (some (.badLap 1)) ∧
      Option.map Outcome.err
          (ProcessEvent out.rs ⟨43200000000000⟩ "10:15:01.000" EventLeftFiringRange 1 "") =
        some (some .badRangeOnExit) := by
  refine ⟨⟨_, rfl⟩, Option.get _ lapAheadEntry_isSome,
    (getCompetitor (Option.get _ lapAheadEntry_isSome).rs 1).2,
    (Option.some_get lapAheadEntry_isSome).symm, ?_, ?_, ?_, ?_, ?_, ?_, ?_⟩ <;> decide

/-! ## C6 -/

theorem unknownNewcomer_isSome :
    (ProcessEvent (NewRaceSystem raceConfig) ⟨43200000000000⟩ "10:00:00.000" 99 7
      "").isSome = true := by
  decide

/-- C6, refuted as stated: in the initial state an event of unknown kind 99 for
competitor 7 returns an error, and the competitor map has gained a record for 7. -/
theorem error_leaves_state_equal_counterexample :
    ∃ out,
      ProcessEvent (NewRaceSystem raceConfig) ⟨43200000000000⟩ "10:00:00.000" 99 7 "" =
        some out ∧
      out.err = some (.unknownEvent 99) ∧ (NewRaceSystem raceConfig).Competitors 7 = none ∧
      out.rs.Competitors 7 = some (newCompetitor 7) ∧ out.rs ≠ NewRaceSystem raceConfig := by
  refine ⟨Option.get _ unknownNewcomer_isSome, (Option.some_get unknownNewcomer_isSome).symm,
    by decide, by decide, by decide, ?_⟩
  intro h
  have h7 : (Option.get _ unknownNewcomer_isSome).rs.Competitors 7 = some (newCompetitor 7) := by
    decide
  rw [h] at h7
  simp [NewRaceSystem] at h7

/-- C6, amended: when `ProcessEvent` returns an error the race state is the state
before the call, except that a competitor id without a record has received a fresh
record (`&Competitor{ID: id}`); `CurrentLap`, the configuration and every record that
existed are unchanged. -/
theorem error_keeps_state_up_to_new_record (rs : RaceSystem) (now : Time) (timeStr : String)
    (eventID c : Int) (params : String) (out : Outcome)
    (hout : ProcessEvent rs now timeStr eventID c params = some out)
    (herr : out.err ≠ none) :
    out.rs = rs ∨
      (rs.Competitors c = none ∧ out.rs = setCompetitor rs c (newCompetitor c)) := by
  rcases ProcessEvent_cases rs now timeStr eventID c params out hout with ⟨_, heq⟩ | ⟨s, hs, heq⟩
  · left; subst heq; rfl
  · subst heq
    obtain ⟨hrs, hcomp⟩ := hs.failed herr
    have hstate : (commit c s).rs = (getCompetitor rs c).1 := by
      show setCompetitor s.rs c s.comp = _
      rw [hrs, hcomp]
      exact setCompetitor_getCompetitor rs c
    cases hc : rs.Competitors c with
    | some comp =>
      left
      rw [hstate, getCompetitor_present rs c comp hc]
    | none =>
      right
      refine ⟨rfl, ?_⟩
      rw [hstate, getCompetitor_absent rs c hc]

/-- Instance of C6 (amended): the unknown event 99 for the new competitor 7. -/
theorem error_keeps_state_up_to_new_record_witness :
    (ProcessEvent (NewRaceSystem raceConfig) ⟨43200000000000⟩ "10:00:00.000" 99 7 "" =
       some (Option.get _ unknownNewcomer_isSome) ∧
     (Option.get _ unknownNewcomer_isSome).err ≠ none) ∧
    ((Option.get _ unknownNewcomer_isSome).rs = NewRaceSystem raceConfig ∨
      ((NewRaceSystem raceConfig).Competitors 7 = none ∧
        (Option.get _ unknownNewcomer_isSome).rs =
          setCompetitor (NewRaceSystem raceConfig) 7 (newCompetitor 7))) :=
  ⟨⟨(Option.some_get unknownNewcomer_isSome).symm, by decide⟩,
   error_keeps_state_up_to_new_record (NewRaceSystem raceConfig) ⟨43200000000000⟩
     "10:00:00.000" 99 7 "" _ (Option.some_get unknownNewcomer_isSome).symm (by decide)⟩

/-! ## C7 -/

/-- C7: with a valid timestamp, a `Registration` event for a competitor whose record
has `Registered = true` returns the already-registered error, writes no log line and
leaves the race state equal to the state before; for a competitor with no record or
with `Registered = false` it succeeds and the record afterwards is the looked-up
record with only `Registered` set to true, all else unchanged. -/
theorem registration_rejects_registered (rs : RaceSystem) (now : Time) (timeStr : String)
    (c : Int) (params : String) (t : Time) (ht : timeParseMilli timeStr = some t) :
    (∀ comp, rs.Competitors c = some comp → comp.Registered = true →
      ProcessEvent rs now timeStr EventRegistration c params =
        some { rs := rs, logs := [], err := some (.alreadyRegistered comp.ID) }) ∧
    ((∀ comp, rs.Competitors c = some comp → comp.Registered = false) →
      ∃ out, ProcessEvent rs now timeStr EventRegistration c params = some out ∧
        out.err = none ∧
        out.rs.Competitors c = some { (getCompetitor rs c).2 with Registered := true } ∧
        out.rs.CurrentLap = rs.CurrentLap ∧ out.rs.Config = rs.Config ∧
        ∀ k, k ≠ c → out.rs.Competitors k = rs.Competitors k) := by
  rw [ProcessEvent_registration rs now timeStr c params t ht]
  constructor
  · intro comp hc hreg
    rw [getCompetitor_present rs c comp hc]
    simp [handleRegistration, hreg, commit, setCompetitor_same rs c comp hc]
  · intro hnot
    have hreg : (getCompetitor rs c).2.Registered = false := by
      cases hc : rs.Competitors c with
      | some comp => rw [getCompetitor_present rs c comp hc]; exact hnot comp hc
      | none => rw [getCompetitor_absent rs c hc]; rfl
    refine ⟨_, rfl, ?_, ?_, ?_, ?_, ?_⟩
    · simp [handleRegistration, hreg, commit]
    · simp [handleRegistration, hreg, commit, setCompetitor]
    · simp [handleRegistration, hreg, commit, setCompetitor, getCompetitor_CurrentLap]
    · simp [handleRegistration, hreg, commit, setCompetitor, getCompetitor_Config]
    · intro k hk
      simp [handleRegistration, hreg, commit, setCompetitor, hk, getCompetitor_other rs c k hk]

/-- Instance of C7: a second `Registration` of competitor 1 in `registeredState`. -/
theorem registration_rejects_registered_witness :
    (timeParseMilli "09:40:00.000" = some ⟨34800000000000⟩ ∧
     registeredState.Competitors 1 = some (getCompetitor registeredState 1).2 ∧
     (getCompetitor registeredState 1).2.Registered = true) ∧
    ProcessEvent registeredState ⟨43200000000000⟩ "09:40:00.000" EventRegistration 1 "" =
      some { rs := registeredState, logs := [],
             err := some (.alreadyRegistered (getCompetitor registeredState 1).2.ID) } :=
  ⟨⟨by decide, by decide, by decide⟩,
   (registration_rejects_registered registeredState ⟨43200000000000⟩ "09:40:00.000" 1 ""
     ⟨34800000000000⟩ (by decide)).1 (getCompetitor registeredState 1).2 (by decide)
     (by decide)⟩

/-! ## C8 -/

theorem entry_nonempty (rs : RaceSystem) (comp : Competitor)
    (hstats : StatsOK rs.Config comp.ShootingStats)
    (hlap : rs.CurrentLap.toNat < comp.ShootingStats.length) :
    0 < (comp.ShootingStats.getD rs.CurrentLap.toNat []).length := by
  have hmem : comp.ShootingStats.getD rs.CurrentLap.toNat [] ∈ comp.ShootingStats := by
    rw [List.getD_eq_getElem comp.ShootingStats [] hlap]
    exact List.getElem_mem hlap
  obtain ⟨hlen, hlines, _⟩ := hstats _ hmem
  omega

theorem processShot_no_entry (rs : RaceSystem) (comp : Competitor) (target : Int)
    (timeStr : String) (h : rs.CurrentLap ≥ (comp.ShootingStats.length : Int)) :
    processShot rs comp target timeStr =
      some { rs := rs, comp := comp, logs := [], err := some (.badLap rs.CurrentLap) } := by
  unfold processShot
  rw [if_pos h]

theorem processRangeExit_no_entry (rs : RaceSystem) (comp : Competitor) (timeStr : String)
    (h : rs.CurrentLap ≥ (comp.ShootingStats.length : Int)) :
    processRangeExit rs comp timeStr =
      some { rs := rs, comp := comp, logs := [], err := some .badRangeOnExit } := by
  unfold processRangeExit
  simp only
  rw [if_pos h]

theorem processShot_entry (rs : RaceSystem) (comp : Competitor) (target : Int)
    (timeStr : String) (h : ¬ rs.CurrentLap ≥ (comp.ShootingStats.length : Int))
    (hneg : ¬ rs.CurrentLap < 0)
    (hslot : 0 < (comp.ShootingStats.getD rs.CurrentLap.toNat []).length) :
    ∃ s, processShot rs comp target timeStr = some s ∧ s.err = none := by
  have hslot2 : ¬ 0 ≥ (comp.ShootingStats.getD rs.CurrentLap.toNat []).length := by omega
  unfold processShot
  rw [if_neg h, if_neg hneg]
  simp only
  rw [if_neg hslot2]
  exact ⟨_, rfl, rfl⟩

theorem processRangeExit_entry (rs : RaceSystem) (comp : Competitor) (timeStr : String)
    (h : ¬ rs.CurrentLap ≥ (comp.ShootingStats.length : Int)) (hneg : ¬ rs.CurrentLap < 0)
    (hslot : 0 < (comp.ShootingStats.getD rs.CurrentLap.toNat []).length) :
    ∃ s, processRangeExit rs comp timeStr = some s ∧ s.err = none := by
  have hslot2 : ¬ 0 ≥ (comp.ShootingStats.getD rs.CurrentLap.toNat []).length := by omega
  unfold processRangeExit
  simp only
  rw [if_neg h, if_neg hneg, if_neg hslot2]
  split
  · exact ⟨_, rfl, rfl⟩
  · exact ⟨_, rfl, rfl⟩

/-- C8: in a reachable state, for the record `ProcessEvent` looks up for competitor `c`
(the stored record, or the fresh one when `c` has none), a `Shot` with an integer
target and a `LeftFiringRange` each return their error exactly when `CurrentLap` is at
least the length of `ShootingStats`; then the record and `CurrentLap` are unchanged
(the whole state when `c` had a record); otherwise the event succeeds. -/
theorem shot_and_exit_fail_iff_no_lap_entry (config : Config) (rs : RaceSystem) (now : Time)
    (timeStr : String) (c : Int) (params exitParams : String) (t : Time) (target : Int)
    (hreach : Reachable config rs) (ht : timeParseMilli timeStr = some t)
    (hp : parseInt params = .ok target) :
    (∃ out, ProcessEvent rs now timeStr EventShot c params = some out ∧
      (rs.CurrentLap ≥ ((getCompetitor rs c).2.ShootingStats.length : Int) →
        out.err = some (.badLap rs.CurrentLap) ∧
        out.rs.Competitors c = some (getCompetitor rs c).2 ∧
        out.rs.CurrentLap = rs.CurrentLap ∧
        ∀ comp, rs.Competitors c = some comp → out.rs = rs) ∧
      (¬ rs.CurrentLap ≥ ((getCompetitor rs c).2.ShootingStats.length : Int) →
        out.err = none)) ∧
    (∃ out, ProcessEvent rs now timeStr EventLeftFiringRange c exitParams = some out ∧
      (rs.CurrentLap ≥ ((getCompetitor rs c).2.ShootingStats.length : Int) →
        out.err = some .badRangeOnExit ∧
        out.rs.Competitors c = some (getCompetitor rs c).2 ∧
        out.rs.CurrentLap = rs.CurrentLap ∧
        ∀ comp, rs.Competitors c = some comp → out.rs = rs) ∧
      (¬ rs.CurrentLap ≥ ((getCompetitor rs c).2.ShootingStats.length : Int) →
        out.err = none)) := by
  have hinv := Inv_getCompetitor rs c (Inv_of_Reachable config rs hreach)
  have hlookup := getCompetitor_lookup rs c
  have hlap0 : 0 ≤ (getCompetitor rs c).1.CurrentLap := hinv.lap_nonneg
  have hlapeq := getCompetitor_CurrentLap rs c
  have hstats := hinv.stats c _ hlookup
  have hsame : ∀ comp, rs.Competitors c = some comp → (getCompetitor rs c).1 = rs := by
    intro comp hc
    rw [getCompetitor_present rs c comp hc]
  rw [ProcessEvent_shot rs now timeStr c params t target ht hp,
    ProcessEvent_leftFiringRange rs now timeStr c exitParams t ht]
  by_cases hlen : rs.CurrentLap ≥ ((getCompetitor rs c).2.ShootingStats.length : Int)
  · have hlen1 : (getCompetitor rs c).1.CurrentLap ≥
        ((getCompetitor rs c).2.ShootingStats.length : Int) := by rw [hlapeq]; exact hlen
    rw [processShot_no_entry _ _ target timeStr hlen1,
      processRangeExit_no_entry _ _ timeStr hlen1, Option.map_some', Option.map_some',
      commit_unchanged, commit_unchanged, hlapeq]
    exact ⟨⟨_, rfl, fun _ => ⟨rfl, hlookup, hlapeq, hsame⟩, fun h => absurd hlen h⟩,
      ⟨_, rfl, fun _ => ⟨rfl, hlookup, hlapeq, hsame⟩, fun h => absurd hlen h⟩⟩
  · have hlen1 : ¬ (getCompetitor rs c).1.CurrentLap ≥
        ((getCompetitor rs c).2.ShootingStats.length : Int) := by rw [hlapeq]; exact hlen
    have hneg : ¬ (getCompetitor rs c).1.CurrentLap < 0 := by omega
    have hidx : (getCompetitor rs c).1.CurrentLap.toNat <
        (getCompetitor rs c).2.ShootingStats.length := by omega
    have hentry := entry_nonempty (getCompetitor rs c).1 (getCompetitor rs c).2 hstats hidx
    obtain ⟨s1, hs1, herr1⟩ := processShot_entry _ _ target timeStr hlen1 hneg hentry
    obtain ⟨s2, hs2, herr2⟩ := processRangeExit_entry _ _ timeStr hlen1 hneg hentry
    rw [hs1, hs2]
    exact ⟨⟨commit c s1, rfl, fun h => absurd h hlen, fun _ => herr1⟩,
      ⟨commit c s2, rfl, fun h => absurd h hlen, fun _ => herr2⟩⟩

/-- Instance of C8 on `lapAheadState`, where competitor 1 has no entry for lap 1. -/
theorem shot_and_exit_fail_iff_no_lap_entry_witness :
    (Reachable raceConfig lapAheadState ∧
     timeParseMilli "10:15:01.000" = some ⟨36901000000000⟩ ∧ parseInt "3" = .ok 3) ∧
    ((∃ out, ProcessEvent lapAheadState ⟨43200000000000⟩ "10:15:01.000" EventShot 1 "3" =
        some out ∧
      (lapAheadState.CurrentLap ≥
          ((getCompetitor lapAheadState 1).2.ShootingStats.length : Int) →
        out.err = some (.badLap lapAheadState.CurrentLap) ∧
        out.rs.Competitors 1 = some (getCompetitor lapAheadState 1).2 ∧
        out.rs.CurrentLap = lapAheadState.CurrentLap ∧
        ∀ comp, lapAheadState.Competitors 1 = some comp → out.rs = lapAheadState) ∧
      (¬ lapAheadState.CurrentLap ≥
          ((getCompetitor lapAheadState 1).2.ShootingStats.length : Int) →
        out.err = none)) ∧
    (∃ out, ProcessEvent lapAheadState ⟨43200000000000⟩ "10:15:01.000" EventLeftFiringRange 1
        "" = some out ∧
      (lapAheadState.CurrentLap ≥
          ((getCompetitor lapAheadState 1).2.ShootingStats.length : Int) →
        out.err = some .badRangeOnExit ∧
        out.rs.Competitors 1 = some (getCompetitor lapAheadState 1).2 ∧
        out.rs.CurrentLap = lapAheadState.CurrentLap ∧
        ∀ comp, lapAheadState.Competitors 1 = some comp → out.rs = lapAheadState) ∧
      (¬ lapAheadState.CurrentLap ≥
          ((getCompetitor lapAheadState 1).2.ShootingStats.length : Int) →
        out.err = none))) ∧
    lapAheadState.CurrentLap ≥ ((getCompetitor lapAheadState 1).2.ShootingStats.length : Int) :=
  ⟨⟨⟨_, rfl⟩, by decide, rfl⟩,
   shot_and_exit_fail_iff_no_lap_entry raceConfig lapAheadState ⟨43200000000000⟩
     "10:15:01.000" 1 "3" "" ⟨36901000000000⟩ 3 ⟨_, rfl⟩ (by decide) rfl,
   by decide⟩

/-! ## C9 -/

theorem processLapCompletion_laps (rs : RaceSystem) (comp : Competitor) (t : Time)
    (timeStr : String) :
    (processLapCompletion rs comp t timeStr).comp.LapsCompleted = comp.LapsCompleted + 1 ∧
    (processLapCompletion rs comp t timeStr).rs.CurrentLap =
      max rs.CurrentLap (comp.LapsCompleted + 1) := by
  unfold processLapCompletion
  simp only
  by_cases hlap : comp.LapsCompleted + 1 > rs.CurrentLap
  · simp only [hlap, if_true]
    split <;>
      exact ⟨rfl, by
        show comp.LapsCompleted + 1 = max rs.CurrentLap (comp.LapsCompleted + 1)
        omega⟩
  · simp only [hlap, if_false]
    split <;>
      exact ⟨rfl, by
        show rs.CurrentLap = max rs.CurrentLap (comp.LapsCompleted + 1)
        omega⟩

/-- C9: in every reachable state `CurrentLap` is the maximum of `LapsCompleted` over the
competitor records (0 when there is no record), and a `LapCompleted` event with a valid
timestamp adds exactly one to the competitor's `LapsCompleted` and sets `CurrentLap`
to the maximum of its old value and the new `LapsCompleted`. -/
theorem currentLap_is_max_lapsCompleted (config : Config) (rs : RaceSystem)
    (hreach : Reachable config rs) :
    ((∀ id comp, rs.Competitors id = some comp → comp.LapsCompleted ≤ rs.CurrentLap) ∧
     ((∃ id comp, rs.Competitors id = some comp ∧ comp.LapsCompleted = rs.CurrentLap) ∨
      ((∀ id, rs.Competitors id = none) ∧ rs.CurrentLap = 0))) ∧
    ∀ (now : Time) (timeStr : String) (c : Int) (params : String) (t : Time),
      timeParseMilli timeStr = some t →
      ∃ out after, ProcessEvent rs now timeStr EventLapCompleted c params = some out ∧
        out.rs.Competitors c = some after ∧
        after.LapsCompleted = (getCompetitor rs c).2.LapsCompleted + 1 ∧
        out.rs.CurrentLap = max rs.CurrentLap after.LapsCompleted := by
  have hinv := Inv_of_Reachable config rs hreach
  refine ⟨⟨hinv.laps_le, ?_⟩, ?_⟩
  · rcases hinv.attained with hzero | hex
    · by_cases hany : ∃ id comp, rs.Competitors id = some comp
      · obtain ⟨id, comp, hid⟩ := hany
        have h1 := hinv.laps_le id comp hid
        have h2 := hinv.laps_nonneg id comp hid
        exact Or.inl ⟨id, comp, hid, by omega⟩
      · right
        refine ⟨fun id => ?_, hzero⟩
        cases hid : rs.Competitors id with
        | none => rfl
        | some comp => exact absurd ⟨id, comp, hid⟩ hany
    · exact Or.inl hex
  · intro now timeStr c params t ht
    rw [ProcessEvent_lapCompleted rs now timeStr c params t ht]
    obtain ⟨hlaps, hcur⟩ :=
      processLapCompletion_laps (getCompetitor rs c).1 (getCompetitor rs c).2 t timeStr
    refine ⟨_, _, rfl, commit_lookup c _, hlaps, ?_⟩
    show (processLapCompletion _ _ t timeStr).rs.CurrentLap = _
    rw [hcur, hlaps, getCompetitor_CurrentLap]

/-- Instance of C9 on `threeHitsState` (competitor 1 has completed one lap). -/
theorem currentLap_is_max_lapsCompleted_witness :
    Reachable raceConfig threeHitsState ∧
    (((∀ id comp, threeHitsState.Competitors id = some comp →
        comp.LapsCompleted ≤ threeHitsState.CurrentLap) ∧
     ((∃ id comp, threeHitsState.Competitors id = some comp ∧
        comp.LapsCompleted = threeHitsState.CurrentLap) ∨
      ((∀ id, threeHitsState.Competitors id = none) ∧ threeHitsState.CurrentLap = 0))) ∧
    ∀ (now : Time) (timeStr : String) (c : Int) (params : String) (t : Time),
      timeParseMilli timeStr = some t →
      ∃ out after,
        ProcessEvent threeHitsState now timeStr EventLapCompleted c params = some out ∧
        out.rs.Competitors c = some after ∧
        after.LapsCompleted = (getCompetitor threeHitsState c).2.LapsCompleted + 1 ∧
        out.rs.CurrentLap = max threeHitsState.CurrentLap after.LapsCompleted) ∧
    threeHitsState.CurrentLap = 1 ∧ (getCompetitor threeHitsState 1).2.LapsCompleted = 1 :=
  ⟨⟨_, rfl⟩, currentLap_is_max_lapsCompleted raceConfig threeHitsState ⟨_, rfl⟩, by decide,
   by decide⟩

/-! ## C10 -/

/-- C10: with a valid timestamp a `LeftPenalty` event returns the no-penalty error
exactly when the competitor's `PenaltyLaps ≤ 0`, and then the looked-up record is kept;
otherwise it succeeds and the record afterwards is the record before with
`PenaltyLaps` one less and every other field equal; `CurrentLap` and the other
competitors are unchanged in both cases. -/
theorem leftPenalty_decrements_iff_owed (rs : RaceSystem) (now : Time) (timeStr : String)
    (c : Int) (params : String) (t : Time) (ht : timeParseMilli timeStr = some t) :
    ∃ out, ProcessEvent rs now timeStr EventLeftPenalty c params = some out ∧
      (out.err = some .noPenaltyLaps ↔ (getCompetitor rs c).2.PenaltyLaps ≤ 0) ∧
      ((getCompetitor rs c).2.PenaltyLaps ≤ 0 →
        out.rs.Competitors c = some (getCompetitor rs c).2) ∧
      (¬ (getCompetitor rs c).2.PenaltyLaps ≤ 0 →
        out.err = none ∧
        out.rs.Competitors c = some { (getCompetitor rs c).2 with
          PenaltyLaps := (getCompetitor rs c).2.PenaltyLaps - 1 }) ∧
      out.rs.CurrentLap = rs.CurrentLap ∧
      ∀ k, k ≠ c → out.rs.Competitors k = rs.Competitors k := by
  rw [ProcessEvent_leftPenalty rs now timeStr c params t ht]
  have hlapeq := getCompetitor_CurrentLap rs c
  refine ⟨_, rfl, ?_⟩
  by_cases hpen : (getCompetitor rs c).2.PenaltyLaps ≤ 0
  · refine ⟨?_, ?_, fun h => absurd hpen h, ?_, ?_⟩
    · simp [processPenaltyExit, hpen, commit]
    · intro _
      simp [processPenaltyExit, hpen, commit, setCompetitor]
    · simp [processPenaltyExit, hpen, commit, setCompetitor, hlapeq]
    · intro k hk
      simp [processPenaltyExit, hpen, commit, setCompetitor, hk, getCompetitor_other rs c k hk]
  · refine ⟨?_, fun h => absurd h hpen, fun _ => ⟨?_, ?_⟩, ?_, ?_⟩
    · simp [processPenaltyExit, hpen, commit]
    · simp [processPenaltyExit, hpen, commit]
    · simp [processPenaltyExit, hpen, commit, setCompetitor]
    · simp [processPenaltyExit, hpen, commit, setCompetitor, hlapeq]
    · intro k hk
      simp [processPenaltyExit, hpen, commit, setCompetitor, hk, getCompetitor_other rs c k hk]

/-- Instance of C10 on `threeHitsState`, where competitor 1 owes two penalty laps. -/
theorem leftPenalty_decrements_iff_owed_witness :
    timeParseMilli "10:18:00.000" = some ⟨37080000000000⟩ ∧
    (∃ out, ProcessEvent threeHitsState ⟨43200000000000⟩ "10:18:00.000" EventLeftPenalty 1 "" =
        some out ∧
      (out.err = some .noPenaltyLaps ↔ (getCompetitor threeHitsState 1).2.PenaltyLaps ≤ 0) ∧
      ((getCompetitor threeHitsState 1).2.PenaltyLaps ≤ 0 →
        out.rs.Competitors 1 = some (getCompetitor threeHitsState 1).2) ∧
      (¬ (getCompetitor threeHitsState 1).2.PenaltyLaps ≤ 0 →
        out.err = none ∧
        out.rs.Competitors 1 = some { (getCompetitor threeHitsState 1).2 with
          PenaltyLaps := (getCompetitor threeHitsState 1).2.PenaltyLaps - 1 }) ∧
      out.rs.CurrentLap = threeHitsState.CurrentLap ∧
      ∀ k, k ≠ 1 → out.rs.Competitors k = threeHitsState.Competitors k) ∧
    (getCompetitor threeHitsState 1).2.PenaltyLaps = 2 :=
  ⟨by decide,
   leftPenalty_decrements_iff_owed threeHitsState ⟨43200000000000⟩ "10:18:00.000" 1 ""
     ⟨37080000000000⟩ (by decide),
   by decide⟩

/-! ## Remaining dispatch equations -/

theorem ProcessEvent_startTimeSet (rs : RaceSystem) (now : Time) (timeStr : String) (c : Int)
    (params : String) (t : Time) (ht : timeParseMilli timeStr = some t) :
    ProcessEvent rs now timeStr EventStartTimeSet c params =
      some (commit c
        (handleStartTimeSet (getCompetitor rs c).1 (getCompetitor rs c).2 params timeStr)) := by
  simp [ProcessEvent, ht, EventRegistration, EventStartTimeSet]

theorem ProcessEvent_onStartLine (rs : RaceSystem) (now : Time) (timeStr : String) (c : Int)
    (params : String) (t : Time) (ht : timeParseMilli timeStr = some t) :
    ProcessEvent rs now timeStr EventOnStartLine c params =
      some { rs := (getCompetitor rs c).1, logs := [], err := none } := by
  simp [ProcessEvent, ht, EventRegistration, EventStartTimeSet, EventOnStartLine]

theorem ProcessEvent_enteredPenalty (rs : RaceSystem) (now : Time) (timeStr : String) (c : Int)
    (params : String) (t : Time) (ht : timeParseMilli timeStr = some t) :
    ProcessEvent rs now timeStr EventEnteredPenalty c params =
      some (commit c
        (processPenaltyEntry (getCompetitor rs c).1 (getCompetitor rs c).2 timeStr)) := by
  simp [ProcessEvent, ht, EventRegistration, EventStartTimeSet, EventOnStartLine,
    EventStarted, EventOnFiringRange, EventShot, EventLeftFiringRange, EventEnteredPenalty]

theorem ProcessEvent_cannotContinue (rs : RaceSystem) (now : Time) (timeStr : String) (c : Int)
    (params : String) (t : Time) (ht : timeParseMilli timeStr = some t) :
    ProcessEvent rs now timeStr EventCannotContinue c params =
      some (commit c
        (disqualify (getCompetitor rs c).1 (getCompetitor rs c).2 ("NotFinished: " ++ params)
          now timeStr)) := by
  simp [ProcessEvent, ht, EventRegistration, EventStartTimeSet, EventOnStartLine,
    EventStarted, EventOnFiringRange, EventShot, EventLeftFiringRange, EventEnteredPenalty,
    EventLeftPenalty, EventLapCompleted, EventCannotContinue]

theorem ProcessEvent_scanError (rs : RaceSystem) (now : Time) (timeStr : String)
    (eventID c : Int) (params : String) (t : Time) (e : RaceError)
    (ht : timeParseMilli timeStr = some t) (hp : parseInt params = .error e)
    (hkind : eventID = EventOnFiringRange ∨ eventID = EventShot) :
    ProcessEvent rs now timeStr eventID c params =
      some { rs := (getCompetitor rs c).1, logs := [], err := some e } := by
  rcases hkind with rfl | rfl <;>
    simp [ProcessEvent, ht, hp, EventRegistration, EventStartTimeSet, EventOnStartLine,
      EventStarted, EventOnFiringRange, EventShot]

theorem ProcessEvent_unknown (rs : RaceSystem) (now : Time) (timeStr : String)
    (eventID c : Int) (params : String) (t : Time) (ht : timeParseMilli timeStr = some t)
    (hkind : ¬ (1 ≤ eventID ∧ eventID ≤ 11)) :
    ProcessEvent rs now timeStr eventID c params =
      some { rs := (getCompetitor rs c).1, logs := [], err := some (.unknownEvent eventID) } := by
  have h1 : eventID ≠ 1 := by omega
  have h2 : eventID ≠ 2 := by omega
  have h3 : eventID ≠ 3 := by omega
  have h4 : eventID ≠ 4 := by omega
  have h5 : eventID ≠ 5 := by omega
  have h6 : eventID ≠ 6 := by omega
  have h7 : eventID ≠ 7 := by omega
  have h8 : eventID ≠ 8 := by omega
  have h9 : eventID ≠ 9 := by omega
  have h10 : eventID ≠ 10 := by omega
  have h11 : eventID ≠ 11 := by omega
  simp [ProcessEvent, ht, EventRegistration, EventStartTimeSet, EventOnStartLine,
    EventStarted, EventOnFiringRange, EventShot, EventLeftFiringRange, EventEnteredPenalty,
    EventLeftPenalty, EventLapCompleted, EventCannotContinue, h1, h2, h3, h4, h5, h6, h7, h8,
    h9, h10, h11]

theorem parseInt_error (s : String) (e : RaceError) (h : parseInt s = .error e) :
    e = .scanInt := by
  unfold parseInt at h
  cases hs : skipSpace s.toList with
  | none =>
    rw [hs] at h
    cases h
    rfl
  | some v =>
    rw [hs] at h
    dsimp only at h
    split_ifs at h <;> cases h <;> rfl

/-! ## C11 -/

/-- C11: with a valid timestamp an `EnteredPenalty` event returns the no-penalty error
exactly when the competitor's `PenaltyLaps ≤ 0`; when it succeeds it writes the entry
line and the race state after the call equals the state before, `PenaltyLaps`
included. -/
theorem enteredPenalty_only_checks (rs : RaceSystem) (now : Time) (timeStr : String)
    (c : Int) (params : String) (t : Time) (ht : timeParseMilli timeStr = some t) :
    ∃ out, ProcessEvent rs now timeStr EventEnteredPenalty c params = some out ∧
      (out.err = some .noPenaltyLaps ↔ (getCompetitor rs c).2.PenaltyLaps ≤ 0) ∧
      ((getCompetitor rs c).2.PenaltyLaps ≤ 0 → out.logs = []) ∧
      (¬ (getCompetitor rs c).2.PenaltyLaps ≤ 0 →
        out.err = none ∧ out.rs = rs ∧
        rs.Competitors c = some (getCompetitor rs c).2 ∧
        out.logs = [⟨timeStr, "The competitor(" ++ toString (getCompetitor rs c).2.ID ++
          ") entered the penalty laps"⟩]) := by
  rw [ProcessEvent_enteredPenalty rs now timeStr c params t ht]
  refine ⟨_, rfl, ?_⟩
  by_cases hpen : (getCompetitor rs c).2.PenaltyLaps ≤ 0
  · refine ⟨?_, fun _ => ?_, fun h => absurd hpen h⟩
    · simp [processPenaltyEntry, hpen, commit]
    · simp [processPenaltyEntry, hpen, commit]
  · have hpresent : rs.Competitors c = some (getCompetitor rs c).2 := by
      cases hc : rs.Competitors c with
      | none =>
        rw [getCompetitor_absent rs c hc] at hpen
        simp [newCompetitor] at hpen
      | some comp => rw [getCompetitor_present rs c comp hc]
    have hsame : (getCompetitor rs c).1 = rs := by
      rw [getCompetitor_present rs c _ hpresent]
    refine ⟨?_, fun h => absurd h hpen, fun _ => ⟨?_, ?_, hpresent, ?_⟩⟩
    · simp [processPenaltyEntry, hpen, commit]
    · simp [processPenaltyEntry, hpen, commit]
    · simp only [processPenaltyEntry, hpen, commit, if_false]
      rw [hsame]
      exact setCompetitor_same rs c _ hpresent
    · simp [processPenaltyEntry, hpen, commit]

/-- Instance of C11 on `threeHitsState`, where competitor 1 owes two penalty laps. -/
theorem enteredPenalty_only_checks_witness :
    timeParseMilli "10:17:00.000" = some ⟨37020000000000⟩ ∧
    (∃ out, ProcessEvent threeHitsState ⟨43200000000000⟩ "10:17:00.000" EventEnteredPenalty 1
        "" = some out ∧
      (out.err = some .noPenaltyLaps ↔ (getCompetitor threeHitsState 1).2.PenaltyLaps ≤ 0) ∧
      ((getCompetitor threeHitsState 1).2.PenaltyLaps ≤ 0 → out.logs = []) ∧
      (¬ (getCompetitor threeHitsState 1).2.PenaltyLaps ≤ 0 →
        out.err = none ∧ out.rs = threeHitsState ∧
        threeHitsState.Competitors 1 = some (getCompetitor threeHitsState 1).2 ∧
        out.logs = [⟨"10:17:00.000", "The competitor(" ++
          toString (getCompetitor threeHitsState 1).2.ID ++ ") entered the penalty laps"⟩])) ∧
    (getCompetitor threeHitsState 1).2.PenaltyLaps = 2 :=
  ⟨by decide,
   enteredPenalty_only_checks threeHitsState ⟨43200000000000⟩ "10:17:00.000" 1 ""
     ⟨37020000000000⟩ (by decide),
   by decide⟩

/-! ## C12 -/

/-- C12: with a valid timestamp and an integer parameter `rangeNum`, an `OnFiringRange`
event returns the invalid-range-number error exactly when `rangeNum < 1` or
`rangeNum > FiringLines`; on that error nothing is logged and the looked-up record,
`ShootingStats` included, is stored unchanged; otherwise the event succeeds. -/
theorem onFiringRange_rejects_iff_out_of_range (rs : RaceSystem) (now : Time)
    (timeStr : String) (c : Int) (params : String) (t : Time) (rangeNum : Int)
    (ht : timeParseMilli timeStr = some t) (hp : parseInt params = .ok rangeNum) :
    ∃ out, ProcessEvent rs now timeStr EventOnFiringRange c params = some out ∧
      (out.err = some (.badRangeNumber rangeNum) ↔
        (rangeNum < 1 ∨ rangeNum > rs.Config.FiringLines)) ∧
      ((rangeNum < 1 ∨ rangeNum > rs.Config.FiringLines) →
        out.logs = [] ∧ out.rs.Competitors c = some (getCompetitor rs c).2 ∧
        out.rs = (getCompetitor rs c).1) ∧
      (¬ (rangeNum < 1 ∨ rangeNum > rs.Config.FiringLines) → out.err = none) := by
  rw [ProcessEvent_onFiringRange rs now timeStr c params t rangeNum ht hp]
  refine ⟨_, rfl, ?_⟩
  have hcfg := getCompetitor_Config rs c
  by_cases hrange : rangeNum < 1 ∨ rangeNum > rs.Config.FiringLines
  · have hrange1 : rangeNum < 1 ∨ rangeNum > (getCompetitor rs c).1.Config.FiringLines := by
      rw [hcfg]; exact hrange
    have hstep : handleFiringRangeEntry (getCompetitor rs c).1 (getCompetitor rs c).2 rangeNum
        timeStr = { rs := (getCompetitor rs c).1, comp := (getCompetitor rs c).2, logs := [],
                    err := some (.badRangeNumber rangeNum) } := by
      unfold handleFiringRangeEntry
      rw [if_pos hrange1]
    rw [hstep, commit_unchanged]
    exact ⟨⟨fun _ => hrange, fun _ => rfl⟩, fun _ => ⟨rfl, getCompetitor_lookup rs c, rfl⟩,
      fun h => absurd hrange h⟩
  · have hrange1 : ¬ (rangeNum < 1 ∨ rangeNum > (getCompetitor rs c).1.Config.FiringLines) := by
      rw [hcfg]; exact hrange
    have herr : (commit c (handleFiringRangeEntry (getCompetitor rs c).1 (getCompetitor rs c).2
        rangeNum timeStr)).err = none := by
      unfold handleFiringRangeEntry
      rw [if_neg hrange1]
      rfl
    rw [herr]
    exact ⟨⟨fun h => (by cases h), fun h => absurd h hrange⟩, fun h => absurd h hrange,
      fun _ => rfl⟩

/-- Instance of C12: firing line 2 in a race with one firing line. -/
theorem onFiringRange_rejects_iff_out_of_range_witness :
    (timeParseMilli "10:05:00.000" = some ⟨36300000000000⟩ ∧ parseInt "2" = .ok 2) ∧
    (∃ out, ProcessEvent registeredState ⟨43200000000000⟩ "10:05:00.000" EventOnFiringRange 1
        "2" = some out ∧
      (out.err = some (.badRangeNumber 2) ↔
        ((2 : Int) < 1 ∨ (2 : Int) > registeredState.Config.FiringLines)) ∧
      (((2 : Int) < 1 ∨ (2 : Int) > registeredState.Config.FiringLines) →
        out.logs = [] ∧ out.rs.Competitors 1 = some (getCompetitor registeredState 1).2 ∧
        out.rs = (getCompetitor registeredState 1).1) ∧
      (¬ ((2 : Int) < 1 ∨ (2 : Int) > registeredState.Config.FiringLines) → out.err = none)) ∧
    ((2 : Int) < 1 ∨ (2 : Int) > registeredState.Config.FiringLines) :=
  ⟨⟨by decide, rfl⟩,
   onFiringRange_rejects_iff_out_of_range registeredState ⟨43200000000000⟩ "10:05:00.000" 1
     "2" ⟨36300000000000⟩ 2 (by decide) rfl,
   by decide⟩

/-! ## C13 -/

theorem handleRegistration_err (rs : RaceSystem) (timeStr : String) (comp : Competitor)
    (k : Int) : (handleRegistration rs timeStr comp).err ≠ some (.unknownEvent k) := by
  unfold handleRegistration
  split <;> simp

theorem handleStartTimeSet_err (rs : RaceSystem) (comp : Competitor) (params timeStr : String)
    (k : Int) : (handleStartTimeSet rs comp params timeStr).err ≠ some (.unknownEvent k) := by
  unfold handleStartTimeSet
  split <;> simp

theorem handleStart_err (rs : RaceSystem) (comp : Competitor) (startTime now : Time)
    (timeStr : String) : (handleStart rs comp startTime now timeStr).err = none := by
  unfold handleStart
  simp only
  split <;> rfl

theorem handleFiringRangeEntry_err (rs : RaceSystem) (comp : Competitor) (rangeNum : Int)
    (timeStr : String) (k : Int) :
    (handleFiringRangeEntry rs comp rangeNum timeStr).err ≠ some (.unknownEvent k) := by
  unfold handleFiringRangeEntry
  split <;> simp

theorem processShot_err (rs : RaceSystem) (comp : Competitor) (target : Int)
    (timeStr : String) (s : Step) (k : Int) (h : processShot rs comp target timeStr = some s) :
    s.err ≠ some (.unknownEvent k) := by
  unfold processShot at h
  split at h
  · cases h; simp
  · split at h
    · cases h
    · simp only at h
      split at h <;> (cases h; simp)

theorem processRangeExit_err (rs : RaceSystem) (comp : Competitor) (timeStr : String)
    (s : Step) (k : Int) (h : processRangeExit rs comp timeStr = some s) :
    s.err ≠ some (.unknownEvent k) := by
  unfold processRangeExit at h
  simp only at h
  split at h
  · cases h; simp
  · split at h
    · cases h
    · split at h
      · cases h; simp
      · split at h <;> (cases h; simp)

theorem processPenaltyEntry_err (rs : RaceSystem) (comp : Competitor) (timeStr : String)
    (k : Int) : (processPenaltyEntry rs comp timeStr).err ≠ some (.unknownEvent k) := by
  unfold processPenaltyEntry
  split <;> simp

theorem processPenaltyExit_err (rs : RaceSystem) (comp : Competitor) (timeStr : String)
    (k : Int) : (processPenaltyExit rs comp timeStr).err ≠ some (.unknownEvent k) := by
  unfold processPenaltyExit
  split <;> simp

theorem processLapCompletion_err (rs : RaceSystem) (comp : Competitor) (t : Time)
    (timeStr : String) : (processLapCompletion rs comp t timeStr).err = none := by
  unfold processLapCompletion
  simp only
  split <;> split <;> rfl

theorem known_kind_cases (eventID : Int) (h : 1 ≤ eventID ∧ eventID ≤ 11) :
    eventID = EventRegistration ∨ eventID = EventStartTimeSet ∨ eventID = EventOnStartLine ∨
    eventID = EventStarted ∨ eventID = EventOnFiringRange ∨ eventID = EventShot ∨
    eventID = EventLeftFiringRange ∨ eventID = EventEnteredPenalty ∨
    eventID = EventLeftPenalty ∨ eventID = EventLapCompleted ∨
    eventID = EventCannotContinue := by
  simp only [EventRegistration, EventStartTimeSet, EventOnStartLine, EventStarted,
    EventOnFiringRange, EventShot, EventLeftFiringRange, EventEnteredPenalty, EventLeftPenalty,
    EventLapCompleted, EventCannotContinue]
  omega

/-- C13: with a well-formed timestamp `ProcessEvent` returns the unknown-event error
exactly for the kinds outside 1..11 (so also for 32 and 33); on that error nothing is
logged and the state is the one `getCompetitor` leaves: `CurrentLap` and every stored
record are unchanged, and a competitor without a record has the fresh record with all
flags false and counters zero. -/
theorem unknown_kind_rejected_iff (rs : RaceSystem) (now : Time) (timeStr : String)
    (eventID c : Int) (params : String) (t : Time) (ht : timeParseMilli timeStr = some t) :
    (¬ (1 ≤ eventID ∧ eventID ≤ 11) →
      ProcessEvent rs now timeStr eventID c params =
        some { rs := (getCompetitor rs c).1, logs := [],
               err := some (.unknownEvent eventID) }) ∧
    ((1 ≤ eventID ∧ eventID ≤ 11) →
      ∀ out, ProcessEvent rs now timeStr eventID c params = some out →
        ∀ k, out.err ≠ some (.unknownEvent k)) ∧
    (getCompetitor rs c).1.CurrentLap = rs.CurrentLap ∧
    (∀ d comp, rs.Competitors d = some comp →
      (getCompetitor rs c).1.Competitors d = some comp) ∧
    (rs.Competitors c = none →
      (getCompetitor rs c).1.Competitors c = some (newCompetitor c)) := by
  refine ⟨ProcessEvent_unknown rs now timeStr eventID c params t ht, ?_,
    getCompetitor_CurrentLap rs c, ?_, ?_⟩
  · intro hkind out hout k
    rcases known_kind_cases eventID hkind with
      rfl | rfl | rfl | rfl | rfl | rfl | rfl | rfl | rfl | rfl | rfl
    · rw [ProcessEvent_registration rs now timeStr c params t ht] at hout
      cases hout
      exact handleRegistration_err _ _ _ k
    · rw [ProcessEvent_startTimeSet rs now timeStr c params t ht] at hout
      cases hout
      exact handleStartTimeSet_err _ _ _ _ k
    · rw [ProcessEvent_onStartLine rs now timeStr c params t ht] at hout
      cases hout
      simp
    · rw [ProcessEvent_started rs now timeStr c params t ht] at hout
      cases hout
      show (handleStart _ _ t now timeStr).err ≠ _
      rw [handleStart_err]
      simp
    · cases hp : parseInt params with
      | error e =>
        rw [ProcessEvent_scanError rs now timeStr _ c params t e ht hp (Or.inl rfl)] at hout
        cases hout
        rw [parseInt_error params e hp]
        simp
      | ok rangeNum =>
        rw [ProcessEvent_onFiringRange rs now timeStr c params t rangeNum ht hp] at hout
        cases hout
        exact handleFiringRangeEntry_err _ _ _ _ k
    · cases hp : parseInt params with
      | error e =>
        rw [ProcessEvent_scanError rs now timeStr _ c params t e ht hp (Or.inr rfl)] at hout
        cases hout
        rw [parseInt_error params e hp]
        simp
      | ok target =>
        rw [ProcessEvent_shot rs now timeStr c params t target ht hp] at hout
        cases hs : processShot (getCompetitor rs c).1 (getCompetitor rs c).2 target timeStr with
        | none => simp [hs] at hout
        | some s =>
          rw [hs] at hout
          cases hout
          exact processShot_err _ _ _ _ s k hs
    · rw [ProcessEvent_leftFiringRange rs now timeStr c params t ht] at hout
      cases hs : processRangeExit (getCompetitor rs c).1 (getCompetitor rs c).2 timeStr with
      | none => simp [hs] at hout
      | some s =>
        rw [hs] at hout
        cases hout
        exact processRangeExit_err _ _ _ s k hs
    · rw [ProcessEvent_enteredPenalty rs now timeStr c params t ht] at hout
      cases hout
      exact processPenaltyEntry_err _ _ _ k
    · rw [ProcessEvent_leftPenalty rs now timeStr c params t ht] at hout
      cases hout
      exact processPenaltyExit_err _ _ _ k
    · rw [ProcessEvent_lapCompleted rs now timeStr c params t ht] at hout
      cases hout
      show (processLapCompletion _ _ t timeStr).err ≠ _
      rw [processLapCompletion_err]
      simp
    · rw [ProcessEvent_cannotContinue rs now timeStr c params t ht] at hout
      cases hout
      simp [commit, disqualify]
  · intro d comp hd
    by_cases hdc : d = c
    · subst hdc
      rw [getCompetitor_present rs d comp hd]
      exact hd
    · rw [getCompetitor_other rs c d hdc]
      exact hd
  · intro hc
    rw [getCompetitor_absent rs c hc]
    simp [setCompetitor]

/-- Instance of C13: the synthesized kind 33 (`Finished`) supplied as input. -/
theorem unknown_kind_rejected_iff_witness :
    (timeParseMilli "10:20:00.000" = some ⟨37200000000000⟩ ∧
     ¬ ((1 : Int) ≤ EventFinished ∧ EventFinished ≤ 11)) ∧
    ProcessEvent threeHitsState ⟨43200000000000⟩ "10:20:00.000" EventFinished 1 "" =
      some { rs := (getCompetitor threeHitsState 1).1, logs := [],
             err := some (.unknownEvent EventFinished) } ∧
    (getCompetitor threeHitsState 1).1.Competitors 1 = threeHitsState.Competitors 1 :=
  ⟨⟨by decide, by decide⟩,
   (unknown_kind_rejected_iff threeHitsState ⟨43200000000000⟩ "10:20:00.000" EventFinished 1 ""
     ⟨37200000000000⟩ (by decide)).1 (by decide),
   by decide⟩

/-! ## C15 -/

/-- C15: with a valid timestamp a `CannotContinue` event with parameter `p` never returns
an error, stores the looked-up record with only `Disqualified` set to true, and writes
exactly one log line, the synthesized event of kind 32 for the competitor with reason
`"NotFinished: " ++ p`; `CurrentLap` and the other competitors are unchanged. -/
theorem cannotContinue_disqualifies (rs : RaceSystem) (now : Time) (timeStr : String)
    (c : Int) (params : String) (t : Time) (ht : timeParseMilli timeStr = some t) :
    ∃ out, ProcessEvent rs now timeStr EventCannotContinue c params = some out ∧
      out.err = none ∧
      out.rs.Competitors c = some { (getCompetitor rs c).2 with Disqualified := true } ∧
      out.logs = [generateOutgoingEvent now EventDisqualified (getCompetitor rs c).2.ID
        ("NotFinished: " ++ params) timeStr] ∧
      out.logs = [⟨timeStr, "[" ++ now.Format ++ "] " ++ "32" ++ " " ++
        toString (getCompetitor rs c).2.ID ++ " " ++ ("NotFinished: " ++ params)⟩] ∧
      out.rs.CurrentLap = rs.CurrentLap ∧
      ∀ k, k ≠ c → out.rs.Competitors k = rs.Competitors k := by
  rw [ProcessEvent_cannotContinue rs now timeStr c params t ht]
  have hne : "NotFinished: " ++ params ≠ "" := by
    intro h
    have := congrArg String.data h
    simp [String.data_append] at this
  refine ⟨_, rfl, rfl, ?_, rfl, ?_, ?_, ?_⟩
  · simp [commit, disqualify, setCompetitor]
  · simp only [commit, disqualify, generateOutgoingEvent, hne, ne_eq, not_false_eq_true,
      if_true]
    rfl
  · simp [commit, disqualify, setCompetitor, getCompetitor_CurrentLap]
  · intro k hk
    simp [commit, disqualify, setCompetitor, hk, getCompetitor_other rs c k hk]

/-- Instance of C15 on `registeredState`. -/
theorem cannotContinue_disqualifies_witness :
    timeParseMilli "10:20:00.000" = some ⟨37200000000000⟩ ∧
    ∃ out, ProcessEvent registeredState ⟨43200000000000⟩ "10:20:00.000" EventCannotContinue 1
        "Lost in the forest" = some out ∧
      out.err = none ∧
      out.rs.Competitors 1 =
        some { (getCompetitor registeredState 1).2 with Disqualified := true } ∧
      out.logs = [generateOutgoingEvent ⟨43200000000000⟩ EventDisqualified
        (getCompetitor registeredState 1).2.ID ("NotFinished: " ++ "Lost in the forest")
        "10:20:00.000"] ∧
      out.logs = [⟨"10:20:00.000", "[" ++ Time.Format ⟨43200000000000⟩ ++ "] " ++ "32" ++ " " ++
        toString (getCompetitor registeredState 1).2.ID ++ " " ++
        ("NotFinished: " ++ "Lost in the forest")⟩] ∧
      out.rs.CurrentLap = registeredState.CurrentLap ∧
      ∀ k, k ≠ 1 → out.rs.Competitors k = registeredState.Competitors k :=
  ⟨by decide,
   cannotContinue_disqualifies registeredState ⟨43200000000000⟩ "10:20:00.000" 1
     "Lost in the forest" ⟨37200000000000⟩ (by decide)⟩

/-! ## C18 -/

/-- C18: in every state reachable under `config`, every lap entry of every competitor
has exactly `FiringLines` slots and `FiringLines ≥ 1`; so for the record `ProcessEvent`
looks up, slot 0 of the current lap's entry exists once the entry exists, a `Shot`
always returns and never with the invalid-range error, and a `LeftFiringRange` always
returns. -/
theorem lap_entries_have_firingLines_slots (config : Config) (rs : RaceSystem)
    (hreach : Reachable config rs) :
    (∀ id comp, rs.Competitors id = some comp → ∀ entry ∈ comp.ShootingStats,
      (entry.length : Int) = config.FiringLines ∧ 1 ≤ config.FiringLines) ∧
    (∀ c, rs.CurrentLap < ((getCompetitor rs c).2.ShootingStats.length : Int) →
      0 ≤ rs.CurrentLap ∧
      0 < ((getCompetitor rs c).2.ShootingStats.getD rs.CurrentLap.toNat []).length) ∧
    (∀ (now : Time) (timeStr : String) (c : Int) (params : String),
      ∃ out, ProcessEvent rs now timeStr EventShot c params = some out ∧
        ∀ n, out.err ≠ some (.badRange n)) ∧
    (∀ (now : Time) (timeStr : String) (c : Int) (params : String),
      ∃ out, ProcessEvent rs now timeStr EventLeftFiringRange c params = some out) := by
  have hinv0 := Inv_of_Reachable config rs hreach
  have hcfg0 := Config_of_Reachable config rs hreach
  have hslot : ∀ c, rs.CurrentLap < ((getCompetitor rs c).2.ShootingStats.length : Int) →
      0 ≤ rs.CurrentLap ∧
      0 < ((getCompetitor rs c).2.ShootingStats.getD rs.CurrentLap.toNat []).length := by
    intro c hlen
    have hinv := Inv_getCompetitor rs c hinv0
    have hstats := hinv.stats c _ (getCompetitor_lookup rs c)
    rw [getCompetitor_Config] at hstats
    have h0 := hinv0.lap_nonneg
    exact ⟨h0, entry_nonempty rs (getCompetitor rs c).2 hstats (by omega)⟩
  refine ⟨?_, hslot, ?_, ?_⟩
  · intro id comp hid entry hentry
    obtain ⟨hlen, hlines, _⟩ := hinv0.stats id comp hid entry hentry
    rw [hcfg0] at hlen hlines
    exact ⟨hlen, hlines⟩
  · intro now timeStr c params
    cases ht : timeParseMilli timeStr with
    | none =>
      rw [ProcessEvent_badTime rs now timeStr _ c params ht]
      exact ⟨_, rfl, fun n => by simp⟩
    | some t =>
      cases hp : parseInt params with
      | error e =>
        rw [ProcessEvent_scanError rs now timeStr _ c params t e ht hp (Or.inr rfl),
          parseInt_error params e hp]
        exact ⟨_, rfl, fun n => by simp⟩
      | ok target =>
        rw [ProcessEvent_shot rs now timeStr c params t target ht hp]
        have hlapeq := getCompetitor_CurrentLap rs c
        by_cases hlen : (getCompetitor rs c).1.CurrentLap ≥
            ((getCompetitor rs c).2.ShootingStats.length : Int)
        · rw [processShot_no_entry _ _ target timeStr hlen]
          exact ⟨_, rfl, fun n => by simp [commit]⟩
        · obtain ⟨h0, hentry⟩ := hslot c (by omega)
          have hneg : ¬ (getCompetitor rs c).1.CurrentLap < 0 := by omega
          rw [← hlapeq] at hentry
          obtain ⟨s, hs, herr⟩ := processShot_entry _ _ target timeStr hlen hneg hentry
          rw [hs]
          exact ⟨commit c s, rfl, fun n => by simp [commit, herr]⟩
  · intro now timeStr c params
    cases ht : timeParseMilli timeStr with
    | none =>
      rw [ProcessEvent_badTime rs now timeStr _ c params ht]
      exact ⟨_, rfl⟩
    | some t =>
      rw [ProcessEvent_leftFiringRange rs now timeStr c params t ht]
      have hlapeq := getCompetitor_CurrentLap rs c
      by_cases hlen : (getCompetitor rs c).1.CurrentLap ≥
          ((getCompetitor rs c).2.ShootingStats.length : Int)
      · rw [processRangeExit_no_entry _ _ timeStr hlen]
        exact ⟨_, rfl⟩
      · obtain ⟨h0, hentry⟩ := hslot c (by omega)
        have hneg : ¬ (getCompetitor rs c).1.CurrentLap < 0 := by omega
        rw [← hlapeq] at hentry
        obtain ⟨s, hs, _⟩ := processRangeExit_entry _ _ timeStr hlen hneg hentry
        rw [hs]
        exact ⟨commit c s, rfl⟩

/-- Instance of C18 on `threeHitsState` (two lap entries of one slot each). -/
theorem lap_entries_have_firingLines_slots_witness :
    Reachable raceConfig threeHitsState ∧
    ((∀ id comp, threeHitsState.Competitors id = some comp → ∀ entry ∈ comp.ShootingStats,
      (entry.length : Int) = raceConfig.FiringLines ∧ 1 ≤ raceConfig.FiringLines) ∧
    (∀ c, threeHitsState.CurrentLap <
        ((getCompetitor threeHitsState c).2.ShootingStats.length : Int) →
      0 ≤ threeHitsState.CurrentLap ∧
      0 < ((getCompetitor threeHitsState c).2.ShootingStats.getD
        threeHitsState.CurrentLap.toNat []).length) ∧
    (∀ (now : Time) (timeStr : String) (c : Int) (params : String),
      ∃ out, ProcessEvent threeHitsState now timeStr EventShot c params = some out ∧
        ∀ n, out.err ≠ some (.badRange n)) ∧
    (∀ (now : Time) (timeStr : String) (c : Int) (params : String),
      ∃ out, ProcessEvent threeHitsState now timeStr EventLeftFiringRange c params =
        some out)) ∧
    (getCompetitor threeHitsState 1).2.ShootingStats = [[[true, true, true, true, true]],
      [[true, true, true]]] :=
  ⟨⟨_, rfl⟩, lap_entries_have_firingLines_slots raceConfig threeHitsState ⟨_, rfl⟩, by decide⟩

/-! ## C19 -/

/-- C19: a call of `ProcessEvent` for competitor id `c` that returns leaves the entry of
every other id `d ≠ c` of the competitor map as it was (absent stays absent, a record
keeps all its fields), and leaves the configuration; only the entry of `c` and
`CurrentLap` can differ. -/
theorem other_competitors_unchanged (rs : RaceSystem) (now : Time) (timeStr : String)
    (eventID c : Int) (params : String) (out : Outcome)
    (hout : ProcessEvent rs now timeStr eventID c params = some out) :
    (∀ d, d ≠ c → out.rs.Competitors d = rs.Competitors d) ∧ out.rs.Config = rs.Config := by
  rcases ProcessEvent_cases rs now timeStr eventID c params out hout with ⟨_, heq⟩ | ⟨s, hs, heq⟩
  · subst heq
    exact ⟨fun _ _ => rfl, rfl⟩
  · subst heq
    refine ⟨fun d hd => ?_, hs.config.trans (getCompetitor_Config rs c)⟩
    simp only [commit, setCompetitor, hs.comps, hd, if_false]
    exact getCompetitor_other rs c d hd

theorem newcomerLap_isSome :
    (ProcessEvent threeHitsState ⟨43200000000000⟩ "10:16:00.000" EventLapCompleted 2
      "").isSome = true := by
  decide

/-- Instance of C19: competitor 2 completes a lap in `threeHitsState`; the record of
competitor 1 stays and id 3 stays without a record. -/
theorem other_competitors_unchanged_witness :
    ProcessEvent threeHitsState ⟨43200000000000⟩ "10:16:00.000" EventLapCompleted 2 "" =
      some (Option.get _ newcomerLap_isSome) ∧
    ((∀ d, d ≠ 2 →
        (Option.get _ newcomerLap_isSome).rs.Competitors d = threeHitsState.Competitors d) ∧
      (Option.get _ newcomerLap_isSome).rs.Config = threeHitsState.Config) ∧
    (Option.get _ newcomerLap_isSome).rs.Competitors 2 ≠ threeHitsState.Competitors 2 :=
  ⟨(Option.some_get newcomerLap_isSome).symm,
   other_competitors_unchanged threeHitsState ⟨43200000000000⟩ "10:16:00.000"
     EventLapCompleted 2 "" _ (Option.some_get newcomerLap_isSome).symm,
   by decide⟩

/-! ## C14 -/

theorem agree_handleRegistration (b : Bool) (rs1 rs2 : RaceSystem) (comp1 comp2 : Competitor)
    (timeStr : String) (hcfg : rs1.Config = rs2.Config)
    (hlap : rs1.CurrentLap = rs2.CurrentLap) (hcomp : projFlags b comp1 = projFlags b comp2) :
    StepAgree b (handleRegistration rs1 timeStr comp1) (handleRegistration rs2 timeStr comp2) := by
  cases rs1
  cases rs2
  simp only at hcfg hlap
  subst hcfg hlap
  cases b
  · simp only [projFlags] at hcomp
    subst hcomp
    constructor <;> simp only [handleRegistration, projFlags] <;> (repeat' split) <;> rfl
  · cases comp1
    cases comp2
    simp only [projFlags, eraseFlags, Competitor.mk.injEq] at hcomp
    obtain ⟨rfl, rfl, rfl, rfl, -, -, rfl, rfl, rfl, rfl, rfl, rfl, rfl⟩ := hcomp
    constructor <;> simp only [handleRegistration, projFlags, eraseFlags] <;> (repeat' split) <;> rfl

theorem agree_handleStartTimeSet (b : Bool) (rs1 rs2 : RaceSystem) (comp1 comp2 : Competitor)
    (params timeStr : String) (hcfg : rs1.Config = rs2.Config)
    (hlap : rs1.CurrentLap = rs2.CurrentLap) (hcomp : projFlags b comp1 = projFlags b comp2) :
    StepAgree b (handleStartTimeSet rs1 comp1 params timeStr) (handleStartTimeSet rs2 comp2 params timeStr) := by
  cases rs1
  cases rs2
  simp only at hcfg hlap
  subst hcfg hlap
  cases b
  · simp only [projFlags] at hcomp
    subst hcomp
    constructor <;> simp only [handleStartTimeSet, projFlags] <;> (repeat' split) <;> rfl
  · cases comp1
    cases comp2
    simp only [projFlags, eraseFlags, Competitor.mk.injEq] at hcomp
    obtain ⟨rfl, rfl, rfl, rfl, -, -, rfl, rfl, rfl, rfl, rfl, rfl, rfl⟩ := hcomp
    constructor <;> simp only [handleStartTimeSet, projFlags, eraseFlags] <;> (repeat' split) <;> rfl

theorem agree_handleStart (b : Bool) (rs1 rs2 : RaceSystem) (comp1 comp2 : Competitor)
    (startTime now : Time) (timeStr : String) (hcfg : rs1.Config = rs2.Config)
    (hlap : rs1.CurrentLap = rs2.CurrentLap) (hcomp : projFlags b comp1 = projFlags b comp2) :
    StepAgree b (handleStart rs1 comp1 startTime now timeStr) (handleStart rs2 comp2 startTime now timeStr) := by
  cases rs1
  cases rs2
  simp only at hcfg hlap
  subst hcfg hlap
  cases b
  · simp only [projFlags] at hcomp
    subst hcomp
    constructor <;> simp only [handleStart, disqualify, projFlags] <;> (repeat' split) <;> rfl
  · cases comp1
    cases comp2
    simp only [projFlags, eraseFlags, Competitor.mk.injEq] at hcomp
    obtain ⟨rfl, rfl, rfl, rfl, -, -, rfl, rfl, rfl, rfl, rfl, rfl, rfl⟩ := hcomp
    constructor <;> simp only [handleStart, disqualify, projFlags, eraseFlags] <;> (repeat' split) <;> rfl

theorem agree_handleFiringRangeEntry (b : Bool) (rs1 rs2 : RaceSystem) (comp1 comp2 : Competitor)
    (rangeNum : Int) (timeStr : String) (hcfg : rs1.Config = rs2.Config)
    (hlap : rs1.CurrentLap = rs2.CurrentLap) (hcomp : projFlags b comp1 = projFlags b comp2) :
    StepAgree b (handleFiringRangeEntry rs1 comp1 rangeNum timeStr) (handleFiringRangeEntry rs2 comp2 rangeNum timeStr) := by
  cases rs1
  cases rs2
  simp only at hcfg hlap
  subst hcfg hlap
  cases b
  · simp only [projFlags] at hcomp
    subst hcomp
    constructor <;> simp only [handleFiringRangeEntry, initShootingStats, projFlags] <;> (repeat' split) <;> rfl
  · cases comp1
    cases comp2
    simp only [projFlags, eraseFlags, Competitor.mk.injEq] at hcomp
    obtain ⟨rfl, rfl, rfl, rfl, -, -, rfl, rfl, rfl, rfl, rfl, rfl, rfl⟩ := hcomp
    constructor <;> simp only [handleFiringRangeEntry, initShootingStats, projFlags, eraseFlags] <;> (repeat' split) <;> rfl

theorem agree_processPenaltyEntry (b : Bool) (rs1 rs2 : RaceSystem) (comp1 comp2 : Competitor)
    (timeStr : String) (hcfg : rs1.Config = rs2.Config)
    (hlap : rs1.CurrentLap = rs2.CurrentLap) (hcomp : projFlags b comp1 = projFlags b comp2) :
    StepAgree b (processPenaltyEntry rs1 comp1 timeStr) (processPenaltyEntry rs2 comp2 timeStr) := by
  cases rs1
  cases rs2
  simp only at hcfg hlap
  subst hcfg hlap
  cases b
  · simp only [projFlags] at hcomp
    subst hcomp
    constructor <;> simp only [processPenaltyEntry, projFlags] <;> (repeat' split) <;> rfl
  · cases comp1
    cases comp2
    simp only [projFlags, eraseFlags, Competitor.mk.injEq] at hcomp
    obtain ⟨rfl, rfl, rfl, rfl, -, -, rfl, rfl, rfl, rfl, rfl, rfl, rfl⟩ := hcomp
    constructor <;> simp only [processPenaltyEntry, projFlags, eraseFlags] <;> (repeat' split) <;> rfl

theorem agree_processPenaltyExit (b : Bool) (rs1 rs2 : RaceSystem) (comp1 comp2 : Competitor)
    (timeStr : String) (hcfg : rs1.Config = rs2.Config)
    (hlap : rs1.CurrentLap = rs2.CurrentLap) (hcomp : projFlags b comp1 = projFlags b comp2) :
    StepAgree b (processPenaltyExit rs1 comp1 timeStr) (processPenaltyExit rs2 comp2 timeStr) := by
  cases rs1
  cases rs2
  simp only at hcfg hlap
  subst hcfg hlap
  cases b
  · simp only [projFlags] at hcomp
    subst hcomp
    constructor <;> simp only [processPenaltyExit, projFlags] <;> (repeat' split) <;> rfl
  · cases comp1
    cases comp2
    simp only [projFlags, eraseFlags, Competitor.mk.injEq] at hcomp
    obtain ⟨rfl, rfl, rfl, rfl, -, -, rfl, rfl, rfl, rfl, rfl, rfl, rfl⟩ := hcomp
    constructor <;> simp only [processPenaltyExit, projFlags, eraseFlags] <;> (repeat' split) <;> rfl

theorem agree_processLapCompletion (b : Bool) (rs1 rs2 : RaceSystem) (comp1 comp2 : Competitor)
    (t : Time) (timeStr : String) (hcfg : rs1.Config = rs2.Config)
    (hlap : rs1.CurrentLap = rs2.CurrentLap) (hcomp : projFlags b comp1 = projFlags b comp2) :
    StepAgree b (processLapCompletion rs1 comp1 t timeStr) (processLapCompletion rs2 comp2 t timeStr) := by
  cases rs1
  cases rs2
  simp only at hcfg hlap
  subst hcfg hlap
  cases b
  · simp only [projFlags] at hcomp
    subst hcomp
    constructor <;> simp only [processLapCompletion, finishCompetitor, projFlags] <;> (repeat' split) <;> rfl
  · cases comp1
    cases comp2
    simp only [projFlags, eraseFlags, Competitor.mk.injEq] at hcomp
    obtain ⟨rfl, rfl, rfl, rfl, -, -, rfl, rfl, rfl, rfl, rfl, rfl, rfl⟩ := hcomp
    constructor <;> simp only [processLapCompletion, finishCompetitor, projFlags, eraseFlags] <;> (repeat' split) <;> rfl

theorem agree_disqualify (b : Bool) (rs1 rs2 : RaceSystem) (comp1 comp2 : Competitor)
    (reason : String) (now : Time) (timeStr : String) (_hcfg : rs1.Config = rs2.Config)
    (hlap : rs1.CurrentLap = rs2.CurrentLap) (hcomp : projFlags b comp1 = projFlags b comp2) :
    StepAgree b (disqualify rs1 comp1 reason now timeStr)
      (disqualify rs2 comp2 reason now timeStr) := by
  cases b
  · simp only [projFlags] at hcomp
    subst hcomp
    exact ⟨rfl, rfl, rfl, hlap⟩
  · cases comp1
    cases comp2
    simp only [projFlags, eraseFlags, Competitor.mk.injEq] at hcomp
    obtain ⟨rfl, rfl, rfl, rfl, -, -, rfl, rfl, rfl, rfl, rfl, rfl, rfl⟩ := hcomp
    exact ⟨rfl, rfl, rfl, hlap⟩

theorem agree_unchanged (b : Bool) (rs1 rs2 : RaceSystem) (comp1 comp2 : Competitor)
    (logs : List LogLine) (err : Option RaceError) (hlap : rs1.CurrentLap = rs2.CurrentLap)
    (hcomp : projFlags b comp1 = projFlags b comp2) :
    StepAgree b { rs := rs1, comp := comp1, logs := logs, err := err }
      { rs := rs2, comp := comp2, logs := logs, err := err } :=
  ⟨rfl, rfl, hcomp, hlap⟩

theorem agree_processShot (b : Bool) (rs1 rs2 : RaceSystem) (comp1 comp2 : Competitor)
    (target : Int) (timeStr : String) (hcfg : rs1.Config = rs2.Config)
    (hlap : rs1.CurrentLap = rs2.CurrentLap) (hcomp : projFlags b comp1 = projFlags b comp2) :
    OptAgree b (processShot rs1 comp1 target timeStr) (processShot rs2 comp2 target timeStr) := by
  cases rs1
  cases rs2
  simp only at hcfg hlap
  subst hcfg hlap
  cases b
  · simp only [projFlags] at hcomp
    subst hcomp
    unfold processShot
    simp only
    repeat' split
    all_goals first
      | exact True.intro
      | exact ⟨rfl, rfl, rfl, rfl⟩
  · cases comp1
    cases comp2
    simp only [projFlags, eraseFlags, Competitor.mk.injEq] at hcomp
    obtain ⟨rfl, rfl, rfl, rfl, -, -, rfl, rfl, rfl, rfl, rfl, rfl, rfl⟩ := hcomp
    unfold processShot
    simp only
    repeat' split
    all_goals first
      | exact True.intro
      | exact ⟨rfl, rfl, rfl, rfl⟩

theorem agree_processRangeExit (b : Bool) (rs1 rs2 : RaceSystem) (comp1 comp2 : Competitor)
    (timeStr : String) (hcfg : rs1.Config = rs2.Config)
    (hlap : rs1.CurrentLap = rs2.CurrentLap) (hcomp : projFlags b comp1 = projFlags b comp2) :
    OptAgree b (processRangeExit rs1 comp1 timeStr) (processRangeExit rs2 comp2 timeStr) := by
  cases rs1
  cases rs2
  simp only at hcfg hlap
  subst hcfg hlap
  cases b
  · simp only [projFlags] at hcomp
    subst hcomp
    unfold processRangeExit
    simp only
    repeat' split
    all_goals first
      | exact True.intro
      | exact ⟨rfl, rfl, rfl, rfl⟩
  · cases comp1
    cases comp2
    simp only [projFlags, eraseFlags, Competitor.mk.injEq] at hcomp
    obtain ⟨rfl, rfl, rfl, rfl, -, -, rfl, rfl, rfl, rfl, rfl, rfl, rfl⟩ := hcomp
    unfold processRangeExit
    simp only
    repeat' split
    all_goals first
      | exact True.intro
      | exact ⟨rfl, rfl, rfl, rfl⟩

theorem ProcessEvent_eq_handlerStep (rs : RaceSystem) (now : Time) (timeStr : String)
    (eventID c : Int) (params : String) (t : Time) (ht : timeParseMilli timeStr = some t) :
    ProcessEvent rs now timeStr eventID c params =
      (handlerStep (getCompetitor rs c).1 (getCompetitor rs c).2 t now timeStr eventID
        params).map (commit c) := by
  unfold ProcessEvent handlerStep
  rw [ht]
  dsimp only
  by_cases h1 : eventID = EventRegistration
  · rw [if_pos h1, if_pos h1]; rfl
  rw [if_neg h1, if_neg h1]
  by_cases h2 : eventID = EventStartTimeSet
  · rw [if_pos h2, if_pos h2]; rfl
  rw [if_neg h2, if_neg h2]
  by_cases h3 : eventID = EventOnStartLine
  · rw [if_pos h3, if_pos h3, Option.map_some', commit_unchanged]
  rw [if_neg h3, if_neg h3]
  by_cases h4 : eventID = EventStarted
  · rw [if_pos h4, if_pos h4]; rfl
  rw [if_neg h4, if_neg h4]
  by_cases h5 : eventID = EventOnFiringRange
  · rw [if_pos h5, if_pos h5]
    cases hp : parseInt params with
    | error e => simp only [Option.map_some', commit_unchanged]
    | ok rangeNum => rfl
  rw [if_neg h5, if_neg h5]
  by_cases h6 : eventID = EventShot
  · rw [if_pos h6, if_pos h6]
    cases hp : parseInt params with
    | error e => simp only [Option.map_some', commit_unchanged]
    | ok target => rfl
  rw [if_neg h6, if_neg h6]
  by_cases h7 : eventID = EventLeftFiringRange
  · rw [if_pos h7, if_pos h7]
  rw [if_neg h7, if_neg h7]
  by_cases h8 : eventID = EventEnteredPenalty
  · rw [if_pos h8, if_pos h8]; rfl
  rw [if_neg h8, if_neg h8]
  by_cases h9 : eventID = EventLeftPenalty
  · rw [if_pos h9, if_pos h9]; rfl
  rw [if_neg h9, if_neg h9]
  by_cases h10 : eventID = EventLapCompleted
  · rw [if_pos h10, if_pos h10]; rfl
  rw [if_neg h10, if_neg h10]
  by_cases h11 : eventID = EventCannotContinue
  · rw [if_pos h11, if_pos h11]; rfl
  rw [if_neg h11, if_neg h11, Option.map_some', commit_unchanged]

theorem agree_handlerStep (b : Bool) (rs1 rs2 : RaceSystem) (comp1 comp2 : Competitor)
    (t now : Time) (timeStr : String) (eventID : Int) (params : String)
    (hcfg : rs1.Config = rs2.Config) (hlap : rs1.CurrentLap = rs2.CurrentLap)
    (hcomp : projFlags b comp1 = projFlags b comp2) :
    OptAgree b (handlerStep rs1 comp1 t now timeStr eventID params)
      (handlerStep rs2 comp2 t now timeStr eventID params) := by
  unfold handlerStep
  by_cases h1 : eventID = EventRegistration
  · rw [if_pos h1, if_pos h1]
    exact agree_handleRegistration b rs1 rs2 comp1 comp2 timeStr hcfg hlap hcomp
  rw [if_neg h1, if_neg h1]
  by_cases h2 : eventID = EventStartTimeSet
  · rw [if_pos h2, if_pos h2]
    exact agree_handleStartTimeSet b rs1 rs2 comp1 comp2 params timeStr hcfg hlap hcomp
  rw [if_neg h2, if_neg h2]
  by_cases h3 : eventID = EventOnStartLine
  · rw [if_pos h3, if_pos h3]
    exact agree_unchanged b rs1 rs2 comp1 comp2 [] none hlap hcomp
  rw [if_neg h3, if_neg h3]
  by_cases h4 : eventID = EventStarted
  · rw [if_pos h4, if_pos h4]
    exact agree_handleStart b rs1 rs2 comp1 comp2 t now timeStr hcfg hlap hcomp
  rw [if_neg h4, if_neg h4]
  by_cases h5 : eventID = EventOnFiringRange
  · rw [if_pos h5, if_pos h5]
    cases hp : parseInt params with
    | error e => exact agree_unchanged b rs1 rs2 comp1 comp2 [] (some e) hlap hcomp
    | ok rangeNum =>
      exact agree_handleFiringRangeEntry b rs1 rs2 comp1 comp2 rangeNum timeStr hcfg hlap hcomp
  rw [if_neg h5, if_neg h5]
  by_cases h6 : eventID = EventShot
  · rw [if_pos h6, if_pos h6]
    cases hp : parseInt params with
    | error e => exact agree_unchanged b rs1 rs2 comp1 comp2 [] (some e) hlap hcomp
    | ok target => exact agree_processShot b rs1 rs2 comp1 comp2 target timeStr hcfg hlap hcomp
  rw [if_neg h6, if_neg h6]
  by_cases h7 : eventID = EventLeftFiringRange
  · rw [if_pos h7, if_pos h7]
    exact agree_processRangeExit b rs1 rs2 comp1 comp2 timeStr hcfg hlap hcomp
  rw [if_neg h7, if_neg h7]
  by_cases h8 : eventID = EventEnteredPenalty
  · rw [if_pos h8, if_pos h8]
    exact agree_processPenaltyEntry b rs1 rs2 comp1 comp2 timeStr hcfg hlap hcomp
  rw [if_neg h8, if_neg h8]
  by_cases h9 : eventID = EventLeftPenalty
  · rw [if_pos h9, if_pos h9]
    exact agree_processPenaltyExit b rs1 rs2 comp1 comp2 timeStr hcfg hlap hcomp
  rw [if_neg h9, if_neg h9]
  by_cases h10 : eventID = EventLapCompleted
  · rw [if_pos h10, if_pos h10]
    exact agree_processLapCompletion b rs1 rs2 comp1 comp2 t timeStr hcfg hlap hcomp
  rw [if_neg h10, if_neg h10]
  by_cases h11 : eventID = EventCannotContinue
  · rw [if_pos h11, if_pos h11]
    exact agree_disqualify b rs1 rs2 comp1 comp2 _ now timeStr hcfg hlap hcomp
  rw [if_neg h11, if_neg h11]
  exact agree_unchanged b rs1 rs2 comp1 comp2 [] _ hlap hcomp

theorem StepOK_handlerStep (rs : RaceSystem) (comp : Competitor) (t now : Time)
    (timeStr : String) (eventID : Int) (params : String) (s : Step)
    (h : handlerStep rs comp t now timeStr eventID params = some s) : StepOK rs comp s := by
  unfold handlerStep at h
  by_cases h1 : eventID = EventRegistration
  · rw [if_pos h1] at h; cases h; exact StepOK_handleRegistration _ _ _
  rw [if_neg h1] at h
  by_cases h2 : eventID = EventStartTimeSet
  · rw [if_pos h2] at h; cases h; exact StepOK_handleStartTimeSet _ _ _ _
  rw [if_neg h2] at h
  by_cases h3 : eventID = EventOnStartLine
  · rw [if_pos h3] at h; cases h; exact StepOK_unchanged _ _ _ _
  rw [if_neg h3] at h
  by_cases h4 : eventID = EventStarted
  · rw [if_pos h4] at h; cases h; exact StepOK_handleStart _ _ _ _ _
  rw [if_neg h4] at h
  by_cases h5 : eventID = EventOnFiringRange
  · rw [if_pos h5] at h
    split at h
    · cases h; exact StepOK_unchanged _ _ _ _
    · cases h; exact StepOK_handleFiringRangeEntry _ _ _ _
  rw [if_neg h5] at h
  by_cases h6 : eventID = EventShot
  · rw [if_pos h6] at h
    split at h
    · cases h; exact StepOK_unchanged _ _ _ _
    · exact StepOK_processShot _ _ _ _ _ h
  rw [if_neg h6] at h
  by_cases h7 : eventID = EventLeftFiringRange
  · rw [if_pos h7] at h; exact StepOK_processRangeExit _ _ _ _ h
  rw [if_neg h7] at h
  by_cases h8 : eventID = EventEnteredPenalty
  · rw [if_pos h8] at h; cases h; exact StepOK_processPenaltyEntry _ _ _
  rw [if_neg h8] at h
  by_cases h9 : eventID = EventLeftPenalty
  · rw [if_pos h9] at h; cases h; exact StepOK_processPenaltyExit _ _ _
  rw [if_neg h9] at h
  by_cases h10 : eventID = EventLapCompleted
  · rw [if_pos h10] at h; cases h; exact StepOK_processLapCompletion _ _ _ _
  rw [if_neg h10] at h
  by_cases h11 : eventID = EventCannotContinue
  · rw [if_pos h11] at h; cases h; exact StepOK_disqualify _ _ _ _ _
  rw [if_neg h11] at h
  cases h
  exact StepOK_unchanged _ _ _ _

theorem SameButFlags_setCompetitor (c id : Int) (rs1 rs2 : RaceSystem)
    (comp1 comp2 : Competitor) (h : SameButFlags c rs1 rs2)
    (hcomp : projFlags (decide (id = c)) comp1 = projFlags (decide (id = c)) comp2) :
    SameButFlags c (setCompetitor rs1 id comp1) (setCompetitor rs2 id comp2) := by
  obtain ⟨hcfg, hlap, hother, hc⟩ := h
  refine ⟨hcfg, hlap, ?_, ?_⟩
  · intro k hk
    by_cases hkid : k = id
    · subst hkid
      have hb : decide (k = c) = false := by simp [hk]
      rw [hb] at hcomp
      simp only [projFlags] at hcomp
      simp [setCompetitor, hcomp]
    · simp only [setCompetitor, hkid, if_false]
      exact hother k hk
  · by_cases hcid : c = id
    · subst hcid
      have hb : decide (c = c) = true := by simp
      rw [hb] at hcomp
      simp only [projFlags] at hcomp
      simp [setCompetitor, hcomp]
    · simp only [setCompetitor, hcid, if_false]
      exact hc

theorem getCompetitor_agree (c id : Int) (rs1 rs2 : RaceSystem) (h : SameButFlags c rs1 rs2) :
    SameButFlags c (getCompetitor rs1 id).1 (getCompetitor rs2 id).1 ∧
    projFlags (decide (id = c)) (getCompetitor rs1 id).2 =
      projFlags (decide (id = c)) (getCompetitor rs2 id).2 := by
  have hlookup : (rs1.Competitors id).map (projFlags (decide (id = c))) =
      (rs2.Competitors id).map (projFlags (decide (id = c))) := by
    by_cases hid : id = c
    · subst hid
      have hb : decide (id = id) = true := by simp
      rw [hb]
      exact h.2.2.2
    · have hb : decide (id = c) = false := by simp [hid]
      rw [hb, h.2.2.1 id hid]
  cases h1 : rs1.Competitors id with
  | none =>
    cases h2 : rs2.Competitors id with
    | none =>
      rw [getCompetitor_absent rs1 id h1, getCompetitor_absent rs2 id h2]
      exact ⟨SameButFlags_setCompetitor c id rs1 rs2 _ _ h rfl, rfl⟩
    | some comp2 => rw [h1, h2] at hlookup; cases hlookup
  | some comp1 =>
    cases h2 : rs2.Competitors id with
    | none => rw [h1, h2] at hlookup; cases hlookup
    | some comp2 =>
      rw [h1, h2] at hlookup
      rw [getCompetitor_present rs1 id comp1 h1, getCompetitor_present rs2 id comp2 h2]
      exact ⟨h, Option.some.inj hlookup⟩

theorem commit_agree (c id : Int) (rs1 rs2 : RaceSystem) (comp1 comp2 : Competitor)
    (s1 s2 : Step) (h : SameButFlags c rs1 rs2) (h1 : StepOK rs1 comp1 s1)
    (h2 : StepOK rs2 comp2 s2) (hA : StepAgree (decide (id = c)) s1 s2) :
    SameButFlags c (commit id s1).rs (commit id s2).rs := by
  have hstate : SameButFlags c s1.rs s2.rs := by
    obtain ⟨hcfg, _, hother, hc⟩ := h
    refine ⟨?_, hA.lap, ?_, ?_⟩
    · rw [h1.config, h2.config]; exact hcfg
    · intro k hk
      rw [h1.comps, h2.comps]
      exact hother k hk
    · rw [h1.comps, h2.comps]
      exact hc
  exact SameButFlags_setCompetitor c id s1.rs s2.rs s1.comp s2.comp hstate hA.comp

/-- C14: two race states that differ at most in the `Finished` and `Disqualified`
flags of competitor `c` answer every event alike: both calls panic, or both return,
with the same error and log lines and with result states that again differ at most in
those two flags of `c`. -/
theorem terminal_flags_do_not_matter (c : Int) (rs1 rs2 : RaceSystem) (now : Time)
    (timeStr : String) (eventID id : Int) (params : String) (h : SameButFlags c rs1 rs2) :
    (ProcessEvent rs1 now timeStr eventID id params = none ∧
      ProcessEvent rs2 now timeStr eventID id params = none) ∨
    ∃ out1 out2, ProcessEvent rs1 now timeStr eventID id params = some out1 ∧
      ProcessEvent rs2 now timeStr eventID id params = some out2 ∧
      out1.err = out2.err ∧ out1.logs = out2.logs ∧ SameButFlags c out1.rs out2.rs := by
  cases ht : timeParseMilli timeStr with
  | none =>
    right
    rw [ProcessEvent_badTime rs1 now timeStr eventID id params ht,
      ProcessEvent_badTime rs2 now timeStr eventID id params ht]
    exact ⟨_, _, rfl, rfl, rfl, rfl, h⟩
  | some t =>
    rw [ProcessEvent_eq_handlerStep rs1 now timeStr eventID id params t ht,
      ProcessEvent_eq_handlerStep rs2 now timeStr eventID id params t ht]
    obtain ⟨hsame, hcomp⟩ := getCompetitor_agree c id rs1 rs2 h
    have hA := agree_handlerStep (decide (id = c)) (getCompetitor rs1 id).1
      (getCompetitor rs2 id).1 (getCompetitor rs1 id).2 (getCompetitor rs2 id).2 t now timeStr
      eventID params hsame.1 hsame.2.1 hcomp
    cases hs1 : handlerStep (getCompetitor rs1 id).1 (getCompetitor rs1 id).2 t now timeStr
        eventID params with
    | none =>
      cases hs2 : handlerStep (getCompetitor rs2 id).1 (getCompetitor rs2 id).2 t now timeStr
          eventID params with
      | none => left; exact ⟨rfl, rfl⟩
      | some s2 => rw [hs1, hs2] at hA; exact absurd hA (by simp [OptAgree])
    | some s1 =>
      cases hs2 : handlerStep (getCompetitor rs2 id).1 (getCompetitor rs2 id).2 t now timeStr
          eventID params with
      | none => rw [hs1, hs2] at hA; exact absurd hA (by simp [OptAgree])
      | some s2 =>
        rw [hs1, hs2] at hA
        right
        exact ⟨commit id s1, commit id s2, rfl, rfl, hA.err, hA.logs,
          commit_agree c id _ _ _ _ s1 s2 hsame (StepOK_handlerStep _ _ _ _ _ _ _ s1 hs1)
            (StepOK_handlerStep _ _ _ _ _ _ _ s2 hs2) hA⟩

theorem flaggedState_same : SameButFlags 1 registeredState flaggedState := by
  refine ⟨rfl, rfl, ?_, ?_⟩
  · intro k hk
    simp [flaggedState, setCompetitor, hk]
  · decide

/-- Instance of C14: a `LapCompleted` of competitor 1 in `registeredState` and in the
same state with the competitor already finished and disqualified. -/
theorem terminal_flags_do_not_matter_witness :
    SameButFlags 1 registeredState flaggedState ∧
    ((ProcessEvent registeredState ⟨43200000000000⟩ "10:10:00.000" EventLapCompleted 1 "" =
        none ∧
      ProcessEvent flaggedState ⟨43200000000000⟩ "10:10:00.000" EventLapCompleted 1 "" =
        none) ∨
    ∃ out1 out2,
      ProcessEvent registeredState ⟨43200000000000⟩ "10:10:00.000" EventLapCompleted 1 "" =
        some out1 ∧
      ProcessEvent flaggedState ⟨43200000000000⟩ "10:10:00.000" EventLapCompleted 1 "" =
        some out2 ∧
      out1.err = out2.err ∧ out1.logs = out2.logs ∧ SameButFlags 1 out1.rs out2.rs) ∧
    (getCompetitor registeredState 1).2.Finished = false ∧
    (getCompetitor flaggedState 1).2.Finished = true :=
  ⟨flaggedState_same,
   terminal_flags_do_not_matter 1 registeredState flaggedState ⟨43200000000000⟩
     "10:10:00.000" EventLapCompleted 1 "" flaggedState_same,
   by decide, by decide⟩

/-! ## C16 -/

/-- C16, evaluated where it fails: a line that starts with the separator `"] "` has an
empty first piece, and the slice `parts[0][1:]` panics, before any field is counted;
a line without the separator or with fewer than two fields is skipped, and a
well-formed line gives one `ProcessEvent` call. -/
theorem scanLine_panics_on_leading_separator :
    scanLine "] 1 1" = .panic ∧ scanLine "] " = .panic ∧
    scanLine "10:00:00.000 1 1" = .skipped ∧ scanLine "[10:00:00.000] 1" = .skipped ∧
    scanLine "[10:00:00.000] 1 1" = .call "10:00:00.000" 1 1 "" ∧
    scanLine "[10:00:00.000] 11 1 Lost in the forest" =
      .call "10:00:00.000" 11 1 "Lost in the forest" := by
  decide

/-! ## The lines on which the scanner loop panics -/

theorem splitBracket_ne_nil (l cur : List Char) : splitBracket l cur ≠ [] := by
  induction l, cur using splitBracket.induct with
  | case1 cur => simp [splitBracket]
  | case2 c cur => simp [splitBracket]
  | case3 c d rest cur hsep ih =>
    rw [splitBracket, if_pos hsep]
    simp
  | case4 c d rest cur hsep ih =>
    rw [splitBracket, if_neg hsep]
    exact ih

theorem splitBracket_head_ne_nil (l cur : List Char) (hcur : cur ≠ []) :
    (splitBracket l cur).getD 0 [] ≠ [] := by
  induction l, cur using splitBracket.induct with
  | case1 cur => simpa [splitBracket] using hcur
  | case2 c cur => simp [splitBracket]
  | case3 c d rest cur hsep ih =>
    rw [splitBracket, if_pos hsep]
    simpa using hcur
  | case4 c d rest cur hsep ih =>
    rw [splitBracket, if_neg hsep]
    exact ih (by simp)

/-- The scanner loop panics on exactly the lines that start with the separator `"] "`;
every other line is skipped or gives one `ProcessEvent` call. -/
theorem scanLine_panic_iff (line : String) :
    scanLine line = .panic ↔ ∃ rest, line.toList = ']' :: ' ' :: rest := by
  unfold scanLine
  constructor
  · intro h
    match hl : line.toList with
    | [] => rw [hl] at h; simp [splitBracket] at h
    | [c] => rw [hl] at h; simp [splitBracket] at h
    | c :: d :: rest =>
      by_cases hsep : c = ']' ∧ d = ' '
      · exact ⟨rest, by rw [hsep.1, hsep.2]⟩
      · exfalso
        rw [hl] at h
        have hhead := splitBracket_head_ne_nil (d :: rest) [c] (by simp)
        rw [splitBracket, if_neg hsep] at h
        dsimp only at h
        split at h
        · cases h
        · split at h
          · rename_i hnil
            exact hhead hnil
          · split at h <;> cases h
  · rintro ⟨rest, hl⟩
    rw [hl]
    have hne := splitBracket_ne_nil rest []
    have hlen : ¬ (splitBracket (']' :: ' ' :: rest) []).length < 2 := by
      rw [splitBracket, if_pos ⟨rfl, rfl⟩]
      cases hs : splitBracket rest [] with
      | nil => exact absurd hs hne
      | cons a b => simp
    dsimp only
    rw [if_neg hlen]
    rw [splitBracket, if_pos ⟨rfl, rfl⟩]
    simp

/-! ## C17 -/

/-- C17, evaluated where it fails: the `Disqualified` line of a `CannotContinue` or of
a late `Started` carries the clock reading `now` of the call, not the timestamp of the
inbound event, so the same event processed at `12:00:00` and at `12:00:01` writes two
different lines; the `Finished` line carries the event's own timestamp. -/
theorem disqualified_line_carries_clock_reading :
    Option.map Outcome.logs (ProcessEvent registeredState ⟨43200000000000⟩ "10:20:00.000"
        EventCannotContinue 1 "Lost") =
      some [⟨"10:20:00.000", "[12:00:00.000] 32 1 NotFinished: Lost"⟩] ∧
    Option.map Outcome.logs (ProcessEvent registeredState ⟨43201000000000⟩ "10:20:00.000"
        EventCannotContinue 1 "Lost") =
      some [⟨"10:20:00.000", "[12:00:01.000] 32 1 NotFinished: Lost"⟩] ∧
    Option.map Outcome.logs (ProcessEvent drawnState ⟨43200000000000⟩ "10:00:06.000"
        EventStarted 1 "") =
      some [⟨"10:00:06.000", "The competitor(1) has started"⟩,
        ⟨"10:00:06.000",
          "[12:00:00.000] 32 1 опоздание на старт (допустимо до 10:00:05.000)"⟩] ∧
    Option.map Outcome.logs (ProcessEvent lapAheadState ⟨43200000000000⟩ "10:30:00.000"
        EventLapCompleted 1 "") =
      some [⟨"10:30:00.000", "The competitor(1) ended the main lap"⟩,
        ⟨"10:30:00.000", "[10:30:00.000] 33 1"⟩] := by
  decide

/-! ## C20 -/

theorem firstShot_isSome :
    (ProcessEvent onRangeState ⟨43200000000000⟩ "10:05:01.000" EventShot 1 "3").isSome =
      true := by
  decide

/-- C20, evaluated where it fails: competitor 1 fires at target 3; the shot succeeds,
one hit is appended to slot 0 of the current lap's entry and `PenaltyLaps` stays 0,
but the log line names the competitor id as the target and the target number as the
competitor. -/
theorem shot_line_swaps_target_and_competitor :
    (Option.get _ firstShot_isSome).err = none ∧
    (Option.get _ firstShot_isSome).logs =
      [⟨"10:05:01.000", "The target(1) has been hit by competitor(3)"⟩] ∧
    (Option.get _ firstShot_isSome).logs ≠
      [⟨"10:05:01.000", "The target(3) has been hit by competitor(1)"⟩] ∧
    (getCompetitor onRangeState 1).2.ShootingStats = [[[]]] ∧
    (getCompetitor (Option.get _ firstShot_isSome).rs 1).2.ShootingStats = [[[true]]] ∧
    (getCompetitor onRangeState 1).2.PenaltyLaps = 0 ∧
    (getCompetitor (Option.get _ firstShot_isSome).rs 1).2.PenaltyLaps = 0 := by
  decide

end Skiers
